import Mathlib

/-!
Verification of the Geocoucou GPX-library application (`app.py`).

This file gives a shallow embedding of the program's data model and of the
operations relevant to its specification, and proves (or refutes) the
specification's claims about them.

Modelling conventions:
* Python floats are modelled by exact rationals (`ℚ`); the properties at
  stake are order/sum properties, not rounding behaviour.
* External collaborators (the gpxpy parser, geodesic distance functions,
  the HTTP geocoder) are modelled as explicit parameters: a parse result is
  an `Except String GPXDoc`, distances come from a `Geo` record of functions,
  and the geocoder's raw response is an `Except String GeoResp` (an
  exception models a network failure or timeout).
* Python `list` values are Lean `List`s; `list.append` is `++ [x]`,
  `list.remove` is `List.erase` (both remove/append a single element).
* Python's `str` helpers used by the source (`lower`, `in`, `split`,
  `strip`, `endswith`, `os.path.dirname`, `os.path.basename`) are
  re-implemented below on `List Char` so that everything evaluates.
-/

/- ------------------------------------------------------------------ -/
/- String helpers (models of the Python primitives used by app.py)    -/
/- ------------------------------------------------------------------ -/

/-- Model of Python `str.lower` (ASCII case folding). -/
def lowerString (s : String) : String :=
  ⟨s.toList.map Char.toLower⟩

/-- Helper for substring search: the needle is a leading run of the hay. -/
def isLeadOf : List Char → List Char → Bool
  | [], _ => true
  | _ :: _, [] => false
  | a :: as, b :: bs => a == b && isLeadOf as bs

/-- Helper for substring search over char lists. -/
def occursInChars (needle : List Char) : List Char → Bool
  | [] => isLeadOf needle []
  | b :: bs => isLeadOf needle (b :: bs) || occursInChars needle bs

/-- Model of Python `needle in hay` on strings (substring test). -/
def occursIn (needle hay : String) : Bool :=
  occursInChars needle.toList hay.toList

/-- Model of Python `s.endswith(suffix)`. -/
def endsWithStr (s suffix : String) : Bool :=
  isLeadOf suffix.toList.reverse s.toList.reverse

/-- Model of Python `str.strip` (drop surrounding whitespace). -/
def stripStr (s : String) : String :=
  ⟨((s.toList.dropWhile Char.isWhitespace).reverse.dropWhile Char.isWhitespace).reverse⟩

/-- Splitting of a char list at every character satisfying a predicate
(model of Python `str.split` with a separator; pieces may be empty). -/
def splitOnPred (p : Char → Bool) : List Char → List (List Char)
  | [] => [[]]
  | c :: cs =>
      match splitOnPred p cs with
      | [] => [[]]
      | h :: t => if p c then [] :: h :: t else (c :: h) :: t

/-- Model of Python `str.split()` (split on whitespace, dropping empties). -/
def splitWords (s : String) : List String :=
  ((splitOnPred Char.isWhitespace s.toList).map (fun l => (⟨l⟩ : String))).filter
    (fun w => w ≠ "")

/-- Slash-separated components of a path. -/
def pathParts (p : String) : List String :=
  (splitOnPred (fun c => c == '/') p.toList).map (fun l => (⟨l⟩ : String))

/-- Joining of path components with slashes (model of `'/'.join`). -/
def joinSlash : List String → String
  | [] => ""
  | [x] => x
  | x :: y :: t => x ++ "/" ++ joinSlash (y :: t)

/-- Model of Python `os.path.dirname` for slash-separated paths. -/
def dirname (p : String) : String :=
  let parts := pathParts p
  if parts.length ≤ 1 then "" else joinSlash parts.dropLast

/-- Model of Python `os.path.basename` for slash-separated paths. -/
def basename (p : String) : String :=
  (pathParts p).getLastD ""

/- ------------------------------------------------------------------ -/
/- Data model: parsed GPX documents as delivered by the external parser -/
/- ------------------------------------------------------------------ -/

/-- A parsed track/route point (gpxpy `GPXTrackPoint` / `GPXRoutePoint`). -/
structure TrkPt where
  lat : ℚ
  lon : ℚ
  elevation : Option ℚ
  time : Option String
deriving Repr, DecidableEq

/-- A GPX extension element (tag text pair) as exposed by the parser. -/
structure GpxExt where
  tag : String
  text : String
deriving Repr, DecidableEq

/-- A parsed waypoint (gpxpy `GPXWaypoint`). -/
structure RawWpt where
  lat : ℚ
  lon : ℚ
  name : Option String
  extensions : List GpxExt
  symbol : Option String
deriving Repr, DecidableEq

/-- A parsed track: its segments plus the parser-computed 3D length and
time bounds (`track.length_3d()` and `track.get_time_bounds()` are gpxpy
collaborator calls, so their results are part of the parsed data). -/
structure GPXTrack where
  segments : List (List TrkPt)
  length_3d : ℚ
  time_bounds : Option (Option String × Option String)
deriving Repr, DecidableEq

/-- A parsed GPX document (gpxpy `GPX`). -/
structure GPXDoc where
  tracks : List GPXTrack
  routes : List (List TrkPt)
  waypoints : List RawWpt
deriving Repr, DecidableEq

/-- External geometric collaborators: gpxpy's `distance_2d`/`distance_3d`
point methods (planar and 3D distances in metres). -/
structure Geo where
  dist2d : TrkPt → TrkPt → ℚ
  dist3d : TrkPt → TrkPt → ℚ

/- ------------------------------------------------------------------ -/
/- Data model: the records produced by the Aggregator                  -/
/- ------------------------------------------------------------------ -/

/-- Track record (`TrackData` in app.py; the raw gpxpy object handles
`track`/`segment` are represented by the `points` they carry). -/
structure TrackData where
  file_path : String
  folder_path : String
  name : String
  points : List TrkPt
  length : ℚ
  elevation_gain : ℚ
  start_time : Option String
  end_time : Option String
  keywords : List String
deriving Repr, DecidableEq

/-- Route record (`RouteData` in app.py). -/
structure RouteData where
  file_path : String
  folder_path : String
  name : String
  points : List TrkPt
  length : ℚ
  keywords : List String
deriving Repr, DecidableEq

/-- Waypoint record (`WaypointData` in app.py). -/
structure WaypointData where
  file_path : String
  folder_path : String
  name : String
  waypoint : RawWpt
  keywords : List String
  icon : Option String
deriving Repr, DecidableEq

/-- Property `WaypointData.lat` from app.py. -/
def WaypointData.lat (w : WaypointData) : ℚ := w.waypoint.lat

/-- Property `WaypointData.lon` from app.py. -/
def WaypointData.lon (w : WaypointData) : ℚ := w.waypoint.lon

/-- The mutable state of a `GPXProcessor` instance: its three record
collections. -/
structure GPXProcessor where
  tracks : List TrackData
  routes : List RouteData
  waypoints : List WaypointData
deriving Repr, DecidableEq

/-- A processor whose collections are all empty. -/
def GPXProcessor.empty : GPXProcessor := ⟨[], [], []⟩

/- ------------------------------------------------------------------ -/
/- File system model and `find_gpx_files`                              -/
/- ------------------------------------------------------------------ -/

/-- A directory tree: path, directly contained files (with the parse
result the external parser would give for each file), and subdirectories.
The walk/list primitives of `os` are external collaborators; this tree is
the data they expose. -/
inductive Dir : Type where
  | node : String → List (String × Except String GPXDoc) → List Dir → Dir
deriving Repr

/-- Path of the directory node. -/
def Dir.path : Dir → String
  | .node p _ _ => p

/-- Files directly inside the directory node. -/
def Dir.files : Dir → List (String × Except String GPXDoc)
  | .node _ fs _ => fs

/-- Subdirectories of the directory node. -/
def Dir.subdirs : Dir → List Dir
  | .node _ _ ds => ds

mutual
/-- Model of `os.walk(folder)` flattened to the file list it yields:
files of the root first, then the files of each subdirectory in order. -/
def os_walk : Dir → List (String × Except String GPXDoc)
  | .node _ files subdirs => files ++ os_walk_forest subdirs
/-- Walk of a list of sibling directories in order. -/
def os_walk_forest : List Dir → List (String × Except String GPXDoc)
  | [] => []
  | d :: ds => os_walk d ++ os_walk_forest ds
end

mutual
/-- Look up the directory node with the given path in a tree. -/
def find_dir (d : Dir) (p : String) : Option Dir :=
  match d with
  | .node q files subdirs =>
      if q = p then some (.node q files subdirs) else find_dir_forest subdirs p
/-- Look up a directory path among sibling trees. -/
def find_dir_forest : List Dir → String → Option Dir
  | [], _ => none
  | d :: ds, p =>
      match find_dir d p with
      | some r => some r
      | none => find_dir_forest ds p
end

/-- Embedding of `GPXProcessor.find_gpx_files` (app.py lines 98-106):
for each folder in `folders`, walk it recursively and keep the files whose
lower-cased name ends in `.gpx`. A folder absent from the file system
contributes nothing (as `os.walk` yields nothing there). -/
def find_gpx_files (fs : Dir) (folders : List String) : List (String × Except String GPXDoc) :=
  folders.foldl
    (fun acc folder =>
      acc ++ (match find_dir fs folder with
        | some d => (os_walk d).filter (fun f => endsWithStr (lowerString (basename f.1)) ".gpx")
        | none => []))
    []

/- ------------------------------------------------------------------ -/
/- GPXProcessor: keyword extraction, icon extraction, icon table       -/
/- ------------------------------------------------------------------ -/

/-- Embedding of `GPXProcessor.extract_keywords` (app.py lines 108-115):
lower-cased path segments, excluding empties and bare separators. -/
def extract_keywords (file_path : String) : List String :=
  ((pathParts file_path).filter
    (fun part => ¬ (part = "" ∨ part = "/" ∨ part = "\\"))).map lowerString

/-- Embedding of `GPXProcessor.extract_waypoint_icon` (app.py lines
117-137): first extension whose tag contains `osmand:icon`, else first
extension whose tag contains `sym`, else the waypoint's non-empty `symbol`
attribute; each stripped; else no icon. -/
def extract_waypoint_icon (w : RawWpt) : Option String :=
  match w.extensions.find? (fun e => occursIn "osmand:icon" e.tag) with
  | some e => some (stripStr e.text)
  | none =>
    match w.extensions.find? (fun e => occursIn "sym" e.tag) with
    | some e => some (stripStr e.text)
    | none =>
      match w.symbol with
      | some s => if s ≠ "" then some (stripStr s) else none
      | none => none

/-- Embedding of the `icon_mapping` dictionary of
`GPXProcessor.get_emoji_for_icon` (app.py lines 142-313), as the ordered
association list the Python dict literal denotes: a key keeps the position
of its first occurrence in the literal and the value of its last
occurrence (duplicate keys in the literal exist, e.g. `marche`, `medium`,
`average`, `free`). -/
def icon_mapping : List (String × String) := [
  ("restaurant", "🍽️"),
  ("restaurants", "🍽️"),
  ("resto", "🍽️"),
  ("cafe", "☕"),
  ("café", "☕"),
  ("coffee", "☕"),
  ("coffee shop", "☕"),
  ("bar", "🍺"),
  ("pub", "🍺"),
  ("brasserie", "🍺"),
  ("food", "🍕"),
  ("nourriture", "🍕"),
  ("manger", "🍕"),
  ("pizza", "🍕"),
  ("pizzeria", "🍕"),
  ("burger", "🍔"),
  ("hamburger", "🍔"),
  ("boulangerie", "🥖"),
  ("bakery", "🥖"),
  ("boulanger", "🥖"),
  ("patisserie", "🧁"),
  ("pâtisserie", "🧁"),
  ("patissier", "🧁"),
  ("car", "🚗"),
  ("voiture", "🚗"),
  ("auto", "🚗"),
  ("bus", "🚌"),
  ("autobus", "🚌"),
  ("train", "🚂"),
  ("gare", "🚂"),
  ("station", "🚂"),
  ("metro", "🚇"),
  ("métro", "🚇"),
  ("subway", "🚇"),
  ("airport", "✈️"),
  ("aéroport", "✈️"),
  ("aeroport", "✈️"),
  ("parking", "🅿️"),
  ("stationnement", "🅿️"),
  ("gas", "⛽"),
  ("essence", "⛽"),
  ("station service", "⛽"),
  ("bike", "🚴"),
  ("vélo", "🚴"),
  ("velo", "🚴"),
  ("bicycle", "🚴"),
  ("hotel", "🏨"),
  ("hôtel", "🏨"),
  ("hotels", "🏨"),
  ("hostel", "🏨"),
  ("auberge", "🏨"),
  ("camping", "⛺"),
  ("camp", "⛺"),
  ("bed", "🛏️"),
  ("lit", "🛏️"),
  ("chambre", "🛏️"),
  ("gite", "🏠"),
  ("gîte", "🏠"),
  ("gites", "🏠"),
  ("shop", "🛍️"),
  ("magasin", "🛍️"),
  ("boutique", "🛍️"),
  ("store", "🏪"),
  ("commerce", "🏪"),
  ("market", "🏪"),
  ("marché", "🏪"),
  ("marche", "🚶"),
  ("pharmacy", "💊"),
  ("pharmacie", "💊"),
  ("bank", "🏦"),
  ("banque", "🏦"),
  ("atm", "🏧"),
  ("distributeur", "🏧"),
  ("supermarket", "🏪"),
  ("supermarché", "🏪"),
  ("supermarche", "🏪"),
  ("museum", "🏛️"),
  ("musée", "🏛️"),
  ("musee", "🏛️"),
  ("museums", "🏛️"),
  ("theater", "🎭"),
  ("théâtre", "🎭"),
  ("theatre", "🎭"),
  ("cinema", "🎬"),
  ("cinéma", "🎬"),
  ("library", "📚"),
  ("bibliothèque", "📚"),
  ("bibliotheque", "📚"),
  ("book", "📖"),
  ("livre", "📖"),
  ("librairie", "📖"),
  ("music", "🎵"),
  ("musique", "🎵"),
  ("art", "🎨"),
  ("artiste", "🎨"),
  ("gallery", "🖼️"),
  ("galerie", "🖼️"),
  ("spectacle", "🎭"),
  ("park", "🌳"),
  ("parc", "🌳"),
  ("jardin", "🌻"),
  ("garden", "🌻"),
  ("jardins", "🌻"),
  ("beach", "🏖️"),
  ("plage", "🏖️"),
  ("mountain", "⛰️"),
  ("montagne", "⛰️"),
  ("mont", "⛰️"),
  ("hiking", "🥾"),
  ("randonnée", "🥾"),
  ("randonnee", "🥾"),
  ("trek", "🥾"),
  ("walking", "🚶"),
  ("piéton", "🚶"),
  ("swimming", "🏊"),
  ("natation", "🏊"),
  ("piscine", "🏊"),
  ("summit", "⛰️"),
  ("sommet", "⛰️"),
  ("pic", "⛰️"),
  ("peak", "⛰️"),
  ("viewpoint", "👁️"),
  ("point de vue", "👁️"),
  ("belvédère", "👁️"),
  ("binoculars", "🔭"),
  ("jumelles", "🔭"),
  ("observation", "🔭"),
  ("lac", "🏞️"),
  ("lake", "🏞️"),
  ("étang", "🏞️"),
  ("etang", "🏞️"),
  ("rivière", "🏞️"),
  ("riviere", "🏞️"),
  ("river", "🏞️"),
  ("special", "⭐"),
  ("spécial", "⭐"),
  ("star", "⭐"),
  ("étoile", "⭐"),
  ("etoile", "⭐"),
  ("special star", "⭐"),
  ("special_star", "⭐"),
  ("favorite", "❤️"),
  ("favori", "❤️"),
  ("favoris", "❤️"),
  ("important", "⭐"),
  ("monument", "🏛️"),
  ("monuments", "🏛️"),
  ("church", "⛪"),
  ("église", "⛪"),
  ("eglise", "⛪"),
  ("chapelle", "⛪"),
  ("temple", "🛕"),
  ("mosque", "🕌"),
  ("mosquée", "🕌"),
  ("mosquee", "🕌"),
  ("château", "🏰"),
  ("chateau", "🏰"),
  ("castle", "🏰"),
  ("tour", "🗼"),
  ("tower", "🗼"),
  ("hospital", "🏥"),
  ("hôpital", "🏥"),
  ("hopital", "🏥"),
  ("police", "👮"),
  ("gendarmerie", "👮"),
  ("commissariat", "👮"),
  ("fire", "🚒"),
  ("pompiers", "🚒"),
  ("sapeurs", "🚒"),
  ("post", "📮"),
  ("poste", "📮"),
  ("la poste", "📮"),
  ("phone", "📞"),
  ("téléphone", "📞"),
  ("telephone", "📞"),
  ("wifi", "📶"),
  ("internet", "📶"),
  ("mairie", "🏛️"),
  ("town hall", "🏛️"),
  ("hôtel de ville", "🏛️"),
  ("toilet", "🚻"),
  ("wc", "🚻"),
  ("toilettes", "🚻"),
  ("info", "ℹ️"),
  ("information", "ℹ️"),
  ("informations", "ℹ️"),
  ("warning", "⚠️"),
  ("attention", "⚠️"),
  ("danger", "⚠️"),
  ("flag", "🚩"),
  ("drapeau", "🚩"),
  ("home", "🏠"),
  ("maison", "🏠"),
  ("domicile", "🏠"),
  ("work", "💼"),
  ("travail", "💼"),
  ("bureau", "💼"),
  ("school", "🏫"),
  ("école", "🏫"),
  ("ecole", "🏫"),
  ("university", "🎓"),
  ("université", "🎓"),
  ("universite", "🎓"),
  ("cimetière", "⚰️"),
  ("cimetiere", "⚰️"),
  ("cemetery", "⚰️"),
  ("cave", "🍷"),
  ("wine", "🍷"),
  ("vin", "🍷"),
  ("fromage", "🧀"),
  ("cheese", "🧀"),
  ("fromagerie", "🧀"),
  ("osmand", "🗺️"),
  ("garmin", "⌚"),
  ("strava", "🏃"),
  ("waypoint", "📍"),
  ("waypoints", "📍"),
  ("wpt", "📍"),
  ("poi", "📍"),
  ("point_of_interest", "📍"),
  ("marker", "📍"),
  ("pin", "📍"),
  ("location", "📍"),
  ("place", "📍"),
  ("spot", "📍"),
  ("site", "📍"),
  ("north", "🧭"),
  ("south", "🧭"),
  ("east", "🧭"),
  ("west", "🧭"),
  ("compass", "🧭"),
  ("direction", "🧭"),
  ("bearing", "🧭"),
  ("route", "🛣️"),
  ("road", "🛣️"),
  ("path", "🛣️"),
  ("trail", "🛣️"),
  ("track", "🛤️"),
  ("railway", "🛤️"),
  ("rail", "🛤️"),
  ("sunny", "☀️"),
  ("sun", "☀️"),
  ("clear", "☀️"),
  ("cloudy", "☁️"),
  ("cloud", "☁️"),
  ("overcast", "☁️"),
  ("rainy", "🌧️"),
  ("rain", "🌧️"),
  ("precipitation", "🌧️"),
  ("snowy", "❄️"),
  ("snow", "❄️"),
  ("winter", "❄️"),
  ("windy", "💨"),
  ("wind", "💨"),
  ("breeze", "💨"),
  ("storm", "⛈️"),
  ("thunderstorm", "⛈️"),
  ("lightning", "⛈️"),
  ("time", "⏰"),
  ("clock", "⏰"),
  ("hour", "⏰"),
  ("schedule", "📅"),
  ("calendar", "📅"),
  ("date", "📅"),
  ("open", "🟢"),
  ("closed", "🔴"),
  ("available", "🟢"),
  ("busy", "🔴"),
  ("occupied", "🔴"),
  ("free", "🆓"),
  ("excellent", "⭐"),
  ("good", "👍"),
  ("average", "🔶"),
  ("poor", "👎"),
  ("bad", "👎"),
  ("terrible", "👎"),
  ("recommended", "👍"),
  ("best", "🏆"),
  ("worst", "💩"),
  ("avoid", "❌"),
  ("skip", "⏭️"),
  ("large", "🔵"),
  ("big", "🔵"),
  ("huge", "🔵"),
  ("small", "🔸"),
  ("tiny", "🔸"),
  ("mini", "🔸"),
  ("medium", "🟡"),
  ("normal", "🔶"),
  ("many", "🔢"),
  ("few", "🔢"),
  ("several", "🔢"),
  ("new", "🆕"),
  ("old", "🆕"),
  ("ancient", "🆕"),
  ("modern", "🆕"),
  ("contemporary", "🆕"),
  ("historic", "🏛️"),
  ("temporary", "⏳"),
  ("permanent", "♾️"),
  ("seasonal", "🍂"),
  ("year_round", "♾️"),
  ("summer", "☀️"),
  ("up", "⬆️"),
  ("down", "⬇️"),
  ("left", "⬅️"),
  ("right", "➡️"),
  ("forward", "⬆️"),
  ("backward", "⬇️"),
  ("straight", "⬆️"),
  ("turn", "↩️"),
  ("curve", "↩️"),
  ("bend", "↩️"),
  ("junction", "➕"),
  ("intersection", "➕"),
  ("crossing", "➕"),
  ("paved", "🛣️"),
  ("unpaved", "🛤️"),
  ("dirt", "🛤️"),
  ("gravel", "🛤️"),
  ("sand", "🏖️"),
  ("rock", "🪨"),
  ("mud", "🟤"),
  ("wet", "💧"),
  ("dry", "🏜️"),
  ("smooth", "🛣️"),
  ("rough", "🛤️"),
  ("bumpy", "🛤️"),
  ("easy", "🟢"),
  ("hard", "🔴"),
  ("difficult", "🔴"),
  ("beginner", "🟢"),
  ("intermediate", "🟡"),
  ("advanced", "🔴"),
  ("expert", "🔴"),
  ("professional", "🔴"),
  ("amateur", "🟢"),
  ("family", "👨‍👩‍👧‍👦"),
  ("children", "👶"),
  ("adult", "👤"),
  ("safe", "✅"),
  ("unsafe", "❌"),
  ("dangerous", "⚠️"),
  ("restricted", "🚫"),
  ("forbidden", "🚫"),
  ("prohibited", "🚫"),
  ("allowed", "✅"),
  ("permitted", "✅"),
  ("legal", "✅"),
  ("illegal", "❌"),
  ("private", "🔒"),
  ("public", "🔓"),
  ("paid", "💰"),
  ("expensive", "💸"),
  ("cheap", "💵"),
  ("affordable", "💵"),
  ("budget", "💵"),
  ("luxury", "💎"),
  ("premium", "💎"),
  ("deluxe", "💎"),
  ("discount", "🏷️"),
  ("sale", "🏷️"),
  ("offer", "🏷️")]

/-- Normalisation applied to the GPX icon by `get_emoji_for_icon` before
the table scan: lower-case, then `_`, `-`, `,` replaced by spaces (app.py
line 317). -/
def iconClean (icon : String) : String :=
  ⟨(icon.toList.map Char.toLower).map
    (fun c => if c == '_' || c == '-' || c == ',' then ' ' else c)⟩

/-- Match test of the icon-based table scan (app.py line 319):
`key in icon_clean or icon_clean in key`. -/
def iconKeyMatches (icon_clean : String) (kv : String × String) : Bool :=
  occursIn kv.1 icon_clean || occursIn icon_clean kv.1

/-- Word cleanup of the name-based fallback (app.py line 327): keep only
alphanumeric characters. -/
def cleanWord (w : String) : String :=
  ⟨w.toList.filter Char.isAlphanum⟩

/-- Match test of the name-based fallback (app.py line 329):
`clean_word == key or key in clean_word`. -/
def nameKeyMatches (clean_word : String) (kv : String × String) : Bool :=
  clean_word == kv.1 || occursIn kv.1 clean_word

/-- Embedding of `GPXProcessor.get_emoji_for_icon` (app.py lines 139-333).
The `icon` argument is `Option String` because callers pass the record's
optional icon (`None` is falsy in Python, like the empty string).
Step 1: if the icon is truthy, return the value of the first table entry
matching the cleaned icon. Step 2: otherwise, for each whitespace word of
the lower-cased waypoint name (cleaned to alphanumerics), return the value
of the first table entry that equals or is contained in the word. Step 3:
otherwise the default pin glyph. -/
def get_emoji_for_icon (icon : Option String) (waypoint_name : String) : String :=
  let fromIcon : Option String :=
    match icon with
    | some ic =>
        if ic ≠ "" then
          (icon_mapping.find? (iconKeyMatches (iconClean ic))).map Prod.snd
        else none
    | none => none
  match fromIcon with
  | some e => e
  | none =>
    let fromName : Option String :=
      if waypoint_name ≠ "" then
        (splitWords (lowerString waypoint_name)).findSome? (fun w =>
          (icon_mapping.find? (nameKeyMatches (cleanWord w))).map Prod.snd)
      else none
    match fromName with
    | some e => e
    | none => "📍"

/-- Contribution of one consecutive point pair to the elevation gain
(app.py lines 342-345): the positive difference when both points carry an
elevation, otherwise zero. -/
def elevation_delta (prev p : TrkPt) : ℚ :=
  match prev.elevation, p.elevation with
  | some a, some b => if b - a > 0 then b - a else 0
  | _, _ => 0

/-- Loop of `GPXProcessor.calculate_elevation_gain` (app.py lines
340-345): sum of the deltas walking the point list with the previous
point at hand. -/
def elevation_gain_from (prev : TrkPt) : List TrkPt → ℚ
  | [] => 0
  | p :: ps => elevation_delta prev p + elevation_gain_from p ps

/-- Embedding of `GPXProcessor.calculate_elevation_gain` (app.py lines
335-346); the explicit guard for fewer than two points mirrors the
source's early return. -/
def calculate_elevation_gain (points : List TrkPt) : ℚ :=
  if points.length < 2 then 0
  else
    match points with
    | [] => 0
    | p :: ps => elevation_gain_from p ps

/-- Start time stored by `process_gpx_file` (app.py line 367):
`bounds.start_time.isoformat() if bounds and bounds.start_time else None`. -/
def boundsStart (tb : Option (Option String × Option String)) : Option String :=
  match tb with
  | some (some s, _) => some s
  | _ => none

/-- End time stored by `process_gpx_file` (app.py line 368). -/
def boundsEnd (tb : Option (Option String × Option String)) : Option String :=
  match tb with
  | some (_, some e) => some e
  | _ => none

/-- Route length computed by `process_gpx_file` (app.py lines 388-389):
`sum(p.distance_3d(route.points[i-1]) if i > 0 else 0 for i, p in
enumerate(route.points))`. -/
def route_length (geo : Geo) (pts : List TrkPt) : ℚ :=
  ((pts.zip pts.tail).map (fun pr => geo.dist3d pr.2 pr.1)).sum

/-- Track record appended by `process_gpx_file` for one non-empty segment
(app.py lines 362-383). -/
def add_track_record (file_path folder_path : String) (keywords : List String)
    (track : GPXTrack) (st : GPXProcessor) (segment : List TrkPt) : GPXProcessor :=
  if ¬ segment.isEmpty then
    { st with tracks := st.tracks ++ [{
        file_path := file_path
        folder_path := folder_path
        name := basename file_path
        points := segment
        length := track.length_3d
        elevation_gain := calculate_elevation_gain segment
        start_time := boundsStart track.time_bounds
        end_time := boundsEnd track.time_bounds
        keywords := keywords }] }
  else st

/-- Route record appended by `process_gpx_file` for one non-empty route
(app.py lines 386-400). -/
def add_route_record (geo : Geo) (file_path folder_path : String) (keywords : List String)
    (st : GPXProcessor) (route : List TrkPt) : GPXProcessor :=
  if ¬ route.isEmpty then
    { st with routes := st.routes ++ [{
        file_path := file_path
        folder_path := folder_path
        name := basename file_path
        points := route
        length := route_length geo route
        keywords := keywords }] }
  else st

/-- Waypoint record appended by `process_gpx_file` for each waypoint
(app.py lines 403-415); Python's `wpt.name or basename` treats `None` and
the empty string as absent. -/
def add_waypoint_record (file_path folder_path : String) (keywords : List String)
    (st : GPXProcessor) (wpt : RawWpt) : GPXProcessor :=
  { st with waypoints := st.waypoints ++ [{
      file_path := file_path
      folder_path := folder_path
      name := (match wpt.name with
        | some n => if n ≠ "" then n else basename file_path
        | none => basename file_path)
      waypoint := wpt
      keywords := keywords
      icon := extract_waypoint_icon wpt }] }

/-- Embedding of `GPXProcessor.process_gpx_file` (app.py lines 348-418).
The file comes with its parse result (the external parser's outcome for
that path); a parse exception is the `.error` case, which the source
catches, logs, and skips, leaving the collections unchanged. A file whose
direct parent directory is not among the selected folders is skipped
before parsing. -/
def process_gpx_file (geo : Geo) (st : GPXProcessor)
    (file : String × Except String GPXDoc) (selected : List String) : GPXProcessor :=
  let file_path := file.1
  let folder_path := dirname file_path
  if folder_path ∉ selected then st
  else
    let keywords := extract_keywords file_path
    match file.2 with
    | .error _ => st
    | .ok gpx =>
      let st := gpx.tracks.foldl (fun st track =>
        track.segments.foldl (add_track_record file_path folder_path keywords track) st) st
      let st := gpx.routes.foldl (add_route_record geo file_path folder_path keywords) st
      gpx.waypoints.foldl (add_waypoint_record file_path folder_path keywords) st

/-- Embedding of `GPXProcessor.process_folders` (app.py lines 420-429):
clear the three collections, then process every discovered file against
the selected folders (the same list plays both roles). -/
def process_folders (geo : Geo) (fs : Dir) (st : GPXProcessor)
    (folders : List String) : GPXProcessor :=
  let st := { st with tracks := [], routes := [], waypoints := [] }
  (find_gpx_files fs folders).foldl (fun st f => process_gpx_file geo st f folders) st

/-- Palette of `GPXProcessor.get_folder_colors` (app.py lines 441-442). -/
def folder_palette : List String :=
  ["blue", "green", "red", "orange", "purple",
   "darkred", "cadetblue", "darkgreen", "darkblue", "pink"]

/-- Palette of `GPXProcessor.get_gpx_colors` (app.py lines 455-459). -/
def gpx_palette : List String :=
  ["blue", "green", "red", "orange", "purple",
   "darkred", "lightred", "beige", "darkblue", "darkgreen",
   "cadetblue", "darkpurple", "white", "pink", "lightblue",
   "lightgreen", "gray", "black", "lightgray", "darkorange",
   "lime", "teal", "navy", "maroon", "olive", "aqua", "fuchsia"]

/-- Model of Python `sorted(some_set)` where the set was filled from a
list: distinct elements in lexicographic order. -/
def sorted_distinct (l : List String) : List String :=
  l.dedup.mergeSort (fun a b => decide (a ≤ b))

/-- Color assignment rule shared by both color mappings (app.py lines 443
and 460): identity at sorted position `i` gets `palette[i % len]`. -/
def palette_assign (palette : List String) (l : List String) : List (String × String) :=
  l.enum.map (fun p => (p.2, palette.getD (p.1 % palette.length) ""))

/-- Folder-path identity domain of `get_folder_colors` (app.py lines
433-439): the folder paths of all three collections. -/
def folder_identities (st : GPXProcessor) : List String :=
  st.tracks.map TrackData.folder_path
    ++ st.routes.map RouteData.folder_path
    ++ st.waypoints.map WaypointData.folder_path

/-- File-path identity domain of `get_gpx_colors` (app.py lines 447-453). -/
def gpx_identities (st : GPXProcessor) : List String :=
  st.tracks.map TrackData.file_path
    ++ st.routes.map RouteData.file_path
    ++ st.waypoints.map WaypointData.file_path

/-- Embedding of `GPXProcessor.get_folder_colors` (app.py lines 431-443). -/
def get_folder_colors (st : GPXProcessor) : List (String × String) :=
  palette_assign folder_palette (sorted_distinct (folder_identities st))

/-- Embedding of `GPXProcessor.get_gpx_colors` (app.py lines 445-460). -/
def get_gpx_colors (st : GPXProcessor) : List (String × String) :=
  palette_assign gpx_palette (sorted_distinct (gpx_identities st))

/- ------------------------------------------------------------------ -/
/- MapRenderer: elevation profile, geocoding, map center/zoom          -/
/- ------------------------------------------------------------------ -/

/-- Inner loop of `calculate_elevation_profile_from_gpx` (app.py lines
481-492) over the points of one segment after its first point: for each
point append its elevation (0 when absent) and append the previous
cumulative distance plus the planar distance to the previous point,
converted to kilometres. -/
def profile_rest (geo : Geo) : TrkPt → List TrkPt → List ℚ → List ℚ → List ℚ × List ℚ
  | _, [], ds, es => (ds, es)
  | prev, p :: ps, ds, es =>
      profile_rest geo p ps
        (ds ++ [ds.getLastD 0 + geo.dist2d prev p / 1000])
        (es ++ [p.elevation.getD 0])

/-- Processing of one segment by `calculate_elevation_profile_from_gpx`:
the first point contributes only its elevation (its enumerate index is 0),
later points go through `profile_rest`. -/
def profile_segment (geo : Geo) (pts : List TrkPt) (acc : List ℚ × List ℚ) : List ℚ × List ℚ :=
  match pts with
  | [] => acc
  | p :: ps => profile_rest geo p ps acc.1 (acc.2 ++ [p.elevation.getD 0])

/-- Embedding of `MapRenderer.calculate_elevation_profile_from_gpx`
(app.py lines 469-498). The file's parse result stands for the file: a
parse exception is the `.error` case, caught by the source's
`except` clause, which returns two empty lists. On success the distance
list starts as `[0.0]` and the loops run over all tracks and segments. -/
def calculate_elevation_profile_from_gpx (geo : Geo)
    (content : Except String GPXDoc) : List ℚ × List ℚ :=
  match content with
  | .error _ => ([], [])
  | .ok gpx =>
      gpx.tracks.foldl
        (fun acc tr => tr.segments.foldl (fun acc seg => profile_segment geo seg acc) acc)
        ([0], [])

/-- Raw response of the external HTTP geocoder (the `requests.get` call of
`geocode_location`): a status code and the decoded coordinate list. An
exception (network failure, timeout) is modelled by the caller passing an
`Except.error`. -/
structure GeoResp where
  status : ℕ
  data : List (ℚ × ℚ)

/-- Embedding of `MapRenderer.geocode_location` (app.py lines 544-569):
on an exception the `except` clause yields no result; otherwise a 200
status with a non-empty result list yields its first coordinate pair; any
other response yields no result. -/
def geocode_location (resp : Except String GeoResp) : Option (ℚ × ℚ) :=
  match resp with
  | .error _ => none
  | .ok r =>
      if r.status = 200 then
        match r.data with
        | [] => none
        | c :: _ => some c
      else none

/-- Embedding of `MapRenderer.get_center_point` (app.py lines 571-590):
collect the first point of every track with points, then of every route
with points, then every waypoint's coordinates; return the first collected
point, or `(0, 0)` when none. -/
def get_center_point (st : GPXProcessor) : ℚ × ℚ :=
  let all_points :=
    (st.tracks.filterMap (fun t =>
      match t.points with
      | [] => none
      | p :: _ => some (p.lat, p.lon)))
    ++ (st.routes.filterMap (fun r =>
      match r.points with
      | [] => none
      | p :: _ => some (p.lat, p.lon)))
    ++ st.waypoints.map (fun w => (w.waypoint.lat, w.waypoint.lon))
  match all_points with
  | [] => (0, 0)
  | p :: _ => p

/-- Embedding of the center/zoom determination of `MapRenderer.create_map`
(app.py lines 592-607): a truthy search location that geocodes
successfully gives its coordinates with zoom 8; otherwise the scan-based
center with the default zoom 6. The remainder of `create_map` only builds
folium layers (external collaborator) and is not part of this model. -/
def create_map_view (st : GPXProcessor) (search_location : Option String)
    (geocoder : String → Except String GeoResp) : (ℚ × ℚ) × ℕ :=
  match search_location with
  | some s =>
      if s ≠ "" then
        match geocode_location (geocoder s) with
        | some coords => (coords, 8)
        | none => (get_center_point st, 6)
      else (get_center_point st, 6)
  | none => (get_center_point st, 6)

/- ------------------------------------------------------------------ -/
/- TreeBuilder: folder tree, cascading selection, post-pass eviction   -/
/- ------------------------------------------------------------------ -/

/-- A folder tree node as built by `TreeBuilder.build_tree` (app.py lines
746-758): a path and the subdirectory nodes (the display name plays no
role in selection logic). -/
inductive FTree : Type where
  | node : String → List FTree → FTree

/-- Path of a folder node. -/
def FTree.path : FTree → String
  | .node p _ => p

/-- Children of a folder node. -/
def FTree.children : FTree → List FTree
  | .node _ cs => cs

mutual
/-- Embedding of `TreeBuilder._add_children_recursive` (app.py lines
836-841): append the node's path if absent, then recurse into its
children. -/
def add_children_recursive (t : FTree) (s : List String) : List String :=
  match t with
  | .node p cs => add_children_forest cs (if p ∈ s then s else s ++ [p])
/-- Application of `_add_children_recursive` to each tree of a list. -/
def add_children_forest : List FTree → List String → List String
  | [], s => s
  | c :: cs, s => add_children_forest cs (add_children_recursive c s)
end

mutual
/-- Embedding of `TreeBuilder._remove_children_recursive` (app.py lines
843-848): remove the node's path if present, then recurse into its
children. -/
def remove_children_recursive (t : FTree) (s : List String) : List String :=
  match t with
  | .node p cs => remove_children_forest cs (if p ∈ s then s.erase p else s)
/-- Application of `_remove_children_recursive` to each tree of a list. -/
def remove_children_forest : List FTree → List String → List String
  | [], s => s
  | c :: cs, s => remove_children_forest cs (remove_children_recursive c s)
end

mutual
/-- Embedding of `TreeBuilder._has_any_child_selected` (app.py lines
823-834): true when some child path is selected, or, recursively, some
deeper descendant's path is (note: descendants at any depth count, not
only direct children). -/
def has_any_child_selected (t : FTree) (s : List String) : Bool :=
  match t with
  | .node _ cs => has_any_child_forest cs s
/-- Scan of a child list by `_has_any_child_selected`: a child counts if
its own path is selected or one of its descendants' paths is. -/
def has_any_child_forest : List FTree → List String → Bool
  | [], _ => false
  | c :: cs, s => (decide (c.path ∈ s) || has_any_child_selected c s) || has_any_child_forest cs s
end

/-- Check/uncheck handling of one `render_tree` visit (app.py lines
795-809): the checkbox of the node whose path is `p` reports `b`, every
other checkbox reports its current selection state; a checked transition
appends the node's path and every descendant's, an unchecked transition
removes them. -/
def toggle_step (t : FTree) (selected : List String) (p : String) (b : Bool) : List String :=
  match t with
  | .node path cs =>
    let checked := if path = p then b else decide (path ∈ selected)
    if checked ∧ path ∉ selected then
      add_children_forest cs (selected ++ [path])
    else if ¬ (checked = true) ∧ path ∈ selected then
      remove_children_forest cs (selected.erase path)
    else selected

/-- Post-pass of `render_tree` (app.py lines 815-821): after the children
are rendered, a node that has children, is selected, and has no selected
descendant is evicted. -/
def post_pass (t : FTree) (s2 : List String) : List String :=
  if ¬ t.children.isEmpty ∧ t.path ∈ s2 ∧ ¬ has_any_child_selected t s2 then
    s2.erase t.path
  else s2

mutual
/-- Embedding of one `TreeBuilder.render_tree` pass (app.py lines
783-821) for a single user interaction: the toggle step of the node, the
recursive rendering of its children, then the bottom-up post-pass. -/
def render_tree (t : FTree) (selected : List String) (p : String) (b : Bool) : List String :=
  match t with
  | .node path cs =>
      post_pass (.node path cs) (render_forest cs (toggle_step (.node path cs) selected p b) p b)
/-- Recursive rendering of the children list (app.py lines 812-813). -/
def render_forest : List FTree → List String → String → Bool → List String
  | [], s, _, _ => s
  | c :: cs, s, p, b => render_forest cs (render_tree c s p b) p b
end

/-- A finite sequence of user toggles applied through `render_tree`
passes, starting from a given selection. -/
def apply_toggles (t : FTree) (s : List String) (l : List (String × Bool)) : List String :=
  l.foldl (fun s pb => render_tree t s pb.1 pb.2) s

/- ------------------------------------------------------------------ -/
/- Tree reachability notions used to state the selection invariants    -/
/- ------------------------------------------------------------------ -/

mutual
/-- All nodes of a folder tree (the node itself and its descendants). -/
def subtrees : FTree → List FTree
  | .node p cs => .node p cs :: subtrees_forest cs
/-- All nodes of a list of sibling trees. -/
def subtrees_forest : List FTree → List FTree
  | [] => []
  | c :: cs => subtrees c ++ subtrees_forest cs
end

mutual
/-- All folder paths occurring in a tree. -/
def all_paths : FTree → List String
  | .node p cs => p :: all_paths_forest cs
/-- All folder paths occurring in a list of sibling trees. -/
def all_paths_forest : List FTree → List String
  | [] => []
  | c :: cs => all_paths c ++ all_paths_forest cs
end

/-- The claim's invariant as literally stated: every selected folder that
has children has at least one **direct** child selected. -/
def direct_child_invariant (t : FTree) (s : List String) : Prop :=
  ∀ u ∈ subtrees t, ¬ u.children.isEmpty = true → u.path ∈ s →
    ∃ c ∈ u.children, c.path ∈ s

/-- The invariant the code actually maintains: every selected folder that
has children has at least one **descendant** (of any depth) selected. -/
def descendant_selected_invariant (t : FTree) (s : List String) : Prop :=
  ∀ u ∈ subtrees t, ¬ u.children.isEmpty = true → u.path ∈ s →
    ∃ d ∈ subtrees_forest u.children, d.path ∈ s

/- ------------------------------------------------------------------ -/
/- Claim-side auxiliary definitions                                    -/
/- ------------------------------------------------------------------ -/

/-- Center point as the specification phrases it: the first point of the
first entity of the first non-empty collection, scanning tracks, routes,
then waypoints, and `(0, 0)` when all three are empty. -/
def first_entity_center (st : GPXProcessor) : ℚ × ℚ :=
  match st.tracks with
  | t :: _ =>
      (match t.points with
        | p :: _ => (p.lat, p.lon)
        | [] => (0, 0))
  | [] =>
      match st.routes with
      | r :: _ =>
          (match r.points with
            | p :: _ => (p.lat, p.lon)
            | [] => (0, 0))
      | [] =>
          match st.waypoints with
          | w :: _ => (w.waypoint.lat, w.waypoint.lon)
          | [] => (0, 0)

/-- Number of non-empty segments across all tracks of a document (the
quantity governing the length relation of the elevation profile arrays). -/
def nonempty_segment_count (gpx : GPXDoc) : ℕ :=
  (gpx.tracks.map (fun tr => (tr.segments.filter (fun s => !s.isEmpty)).length)).sum

/- ------------------------------------------------------------------ -/
/- Concrete inputs used by counterexamples and witnesses               -/
/- ------------------------------------------------------------------ -/

/-- Trivial geometric collaborator (all distances zero); distances play
no role in the facts evaluated on it. -/
def geo0 : Geo := ⟨fun _ _ => 0, fun _ _ => 0⟩

/-- First point of the round-trip scenario track (elevation 100). -/
def ptA1 : TrkPt := ⟨45, 5, some 100, none⟩

/-- Second point of the round-trip scenario track (elevation 150). -/
def ptA2 : TrkPt := ⟨46, 5, some 150, none⟩

/-- Third point of the round-trip scenario track (elevation 120). -/
def ptA3 : TrkPt := ⟨47, 5, some 120, none⟩

/-- Parse result of the scenario file `A/a.gpx`: one track, one segment,
three points with elevations 100, 150, 120. -/
def a_doc : GPXDoc := ⟨[⟨[[ptA1, ptA2, ptA3]], 0, none⟩], [], []⟩

/-- Waypoint of the scenario file `A/B/b.gpx`: at (10, 20) with icon
`museum` carried by an `osmand:icon` extension. -/
def b_wpt : RawWpt := ⟨10, 20, some "wp", [⟨"osmand:icon", "museum"⟩], none⟩

/-- Parse result of the scenario file `A/B/b.gpx`: one waypoint. -/
def b_doc : GPXDoc := ⟨[], [], [b_wpt]⟩

/-- Round-trip scenario file system: a root containing folder `A` with
`a.gpx`, and subfolder `A/B` with `b.gpx`. -/
def scenario_fs : Dir :=
  .node "root" []
    [.node "A" [("A/a.gpx", .ok a_doc)]
      [.node "A/B" [("A/B/b.gpx", .ok b_doc)] []]]

/-- Tree used by the cascade counterexample: root `A` with children
`A/B1` (which has child `A/B1/C`) and `A/B2`. -/
def ex_tree : FTree :=
  .node "A" [.node "A/B1" [.node "A/B1/C" []], .node "A/B2" []]

/-- Toggle sequence of the cascade counterexample: check `A`, uncheck
`A/B1`, check `A/B1/C`, uncheck `A/B2`. -/
def ex_toggles : List (String × Bool) :=
  [("A", true), ("A/B1", false), ("A/B1/C", true), ("A/B2", false)]

/-- A waypoint with no name, no extensions and no symbol. -/
def rawwpt0 : RawWpt := ⟨1, 2, none, [], none⟩

/-- Document holding a single plain waypoint. -/
def wdoc0 : GPXDoc := ⟨[], [], [rawwpt0]⟩

/-- One-folder file system with a single waypoint file `A/x.gpx`. -/
def fs10 : Dir := .node "A" [("A/x.gpx", .ok wdoc0)] []

/-- Waypoint record produced by processing `fs10` with selection `[A]`. -/
def wrec10 : WaypointData :=
  ⟨"A/x.gpx", "A", "x.gpx", rawwpt0, ["a", "x.gpx"], none⟩

/-- Single-point track document fragment used by the profile-length
counterexample. -/
def pt_c5 : TrkPt := ⟨0, 0, some 7, none⟩

/-- Document with two tracks of one single-point segment each: its
elevation profile has 2 elevations but only 1 distance. -/
def doc_two_tracks : GPXDoc := ⟨[⟨[[pt_c5]], 0, none⟩, ⟨[[pt_c5]], 0, none⟩], [], []⟩

/-- Point with elevation 100 (additivity counterexample). -/
def pt100 : TrkPt := ⟨0, 0, some 100, none⟩

/-- Point with elevation 150 (additivity counterexample). -/
def pt150 : TrkPt := ⟨0, 0, some 150, none⟩

/-- Processor state with two waypoint records in folders `b` and `a`,
used to exercise the color-assignment theorem. -/
def st_colors : GPXProcessor :=
  ⟨[], [],
    [⟨"b/one.gpx", "b", "one.gpx", rawwpt0, [], none⟩,
     ⟨"a/two.gpx", "a", "two.gpx", rawwpt0, [], none⟩]⟩

/-- The same records as `st_colors` in the opposite insertion order. -/
def st_colors_rev : GPXProcessor :=
  ⟨[], [],
    [⟨"a/two.gpx", "a", "two.gpx", rawwpt0, [], none⟩,
     ⟨"b/one.gpx", "b", "one.gpx", rawwpt0, [], none⟩]⟩

/- ------------------------------------------------------------------ -/
/- Theorems                                                            -/
/- ------------------------------------------------------------------ -/

/- Claim C3: elevation gain non-negativity and additivity -/

theorem elevation_delta_nonneg (prev p : TrkPt) : 0 ≤ elevation_delta prev p := by
  unfold elevation_delta
  rcases prev.elevation with _ | a <;> rcases p.elevation with _ | b <;> simp
  split <;> linarith

theorem elevation_gain_from_nonneg (prev : TrkPt) (l : List TrkPt) :
    0 ≤ elevation_gain_from prev l := by
  induction l generalizing prev with
  | nil => simp [elevation_gain_from]
  | cons p ps ih =>
      have h1 := elevation_delta_nonneg prev p
      have h2 := ih p
      simp only [elevation_gain_from]
      linarith

theorem elevation_gain_from_append (l₁ : List TrkPt) (x : TrkPt) (l₂ : List TrkPt)
    (prev : TrkPt) :
    elevation_gain_from prev (l₁ ++ x :: l₂) =
      elevation_gain_from prev (l₁ ++ [x]) + elevation_gain_from x l₂ := by
  induction l₁ generalizing prev with
  | nil => simp [elevation_gain_from]
  | cons a l ih =>
      simp only [List.cons_append, elevation_gain_from, List.append_eq, ih]
      ring

theorem calculate_elevation_gain_cons (p : TrkPt) (ps : List TrkPt) :
    calculate_elevation_gain (p :: ps) = elevation_gain_from p ps := by
  cases ps with
  | nil => simp [calculate_elevation_gain, elevation_gain_from]
  | cons q t => simp [calculate_elevation_gain]

/-- Claim C3, counterexample to the claim as stated: splitting the
two-point sequence with elevations 100 and 150 into the contiguous parts
`[pt100]` and `[pt150]` loses the cross-boundary delta: the whole gain is
50 while the parts sum to 0. -/
theorem C3_additivity_counterexample :
    calculate_elevation_gain [pt100, pt150] ≠
      calculate_elevation_gain [pt100] + calculate_elevation_gain [pt150] := by
  norm_num [calculate_elevation_gain, elevation_gain_from, elevation_delta, pt100, pt150]

/-- Claim C3 (amended): for every point sequence the elevation gain
computed by `calculate_elevation_gain` is non-negative, and the gain is
additive over contiguous parts that share their boundary point: for every
split of the sequence as `l₁ ++ x :: l₂`, the whole gain equals the gain
of `l₁ ++ [x]` plus the gain of `x :: l₂`. -/
theorem C3_elevation_gain_nonneg_additive :
    (∀ points : List TrkPt, 0 ≤ calculate_elevation_gain points) ∧
    (∀ (l₁ l₂ : List TrkPt) (x : TrkPt),
      calculate_elevation_gain (l₁ ++ x :: l₂) =
        calculate_elevation_gain (l₁ ++ [x]) + calculate_elevation_gain (x :: l₂)) := by
  constructor
  · intro points
    cases points with
    | nil => simp [calculate_elevation_gain]
    | cons p ps => rw [calculate_elevation_gain_cons]; exact elevation_gain_from_nonneg p ps
  · intro l₁ l₂ x
    cases l₁ with
    | nil =>
        simp only [List.nil_append, calculate_elevation_gain_cons]
        simp [elevation_gain_from]
    | cons a l =>
        simp only [List.cons_append, calculate_elevation_gain_cons]
        rw [elevation_gain_from_append]

/- Claim C8: per-file parse failure isolation -/

theorem process_gpx_file_error (geo : Geo) (st : GPXProcessor) (p e : String)
    (sel : List String) :
    process_gpx_file geo st (p, Except.error e) sel = st := by
  simp only [process_gpx_file]
  split <;> rfl

/-- Claim C8: a file whose parse raises an exception leaves the processor
state unchanged (no partial record), and a batch containing such a file
produces exactly the state the batch without it produces — processing
continues with the remaining files and the exception never escapes the
fold that `process_folders` runs. -/
theorem C8_parse_failure_isolated (geo : Geo) (sel : List String) (st : GPXProcessor)
    (l₁ l₂ : List (String × Except String GPXDoc)) (p e : String) :
    process_gpx_file geo st (p, Except.error e) sel = st ∧
    (l₁ ++ (p, Except.error e) :: l₂).foldl (fun st f => process_gpx_file geo st f sel) st =
      (l₁ ++ l₂).foldl (fun st f => process_gpx_file geo st f sel) st := by
  refine ⟨process_gpx_file_error geo st p e sel, ?_⟩
  induction l₁ generalizing st with
  | nil => simp [List.foldl, process_gpx_file_error]
  | cons a l ih => simp only [List.cons_append, List.foldl]; exact ih _

/- Claim C10: collection invariant of process_folders -/

theorem foldl_proj_const {α β γ : Type} (proj : γ → α) (g : γ → β → γ)
    (hg : ∀ st x, proj (g st x) = proj st) :
    ∀ (l : List β) (st : γ), proj (l.foldl g st) = proj st := by
  intro l
  induction l with
  | nil => intro st; rfl
  | cons x xs ih => intro st; rw [List.foldl_cons, ih, hg]

theorem foldl_mem_or {α β γ : Type} (proj : γ → List α) (Q : α → Prop) (g : γ → β → γ)
    (hg : ∀ st x, ∀ r ∈ proj (g st x), r ∈ proj st ∨ Q r) :
    ∀ (l : List β) (st : γ), ∀ r ∈ proj (l.foldl g st), r ∈ proj st ∨ Q r := by
  intro l
  induction l with
  | nil => intro st r hr; exact Or.inl hr
  | cons x xs ih =>
      intro st r hr
      rcases ih (g st x) r hr with h | h
      · exact hg st x r h
      · exact Or.inr h

theorem add_track_record_routes (fp fo : String) (kw : List String) (tr : GPXTrack)
    (st : GPXProcessor) (seg : List TrkPt) :
    (add_track_record fp fo kw tr st seg).routes = st.routes := by
  unfold add_track_record; split <;> rfl

theorem add_track_record_waypoints (fp fo : String) (kw : List String) (tr : GPXTrack)
    (st : GPXProcessor) (seg : List TrkPt) :
    (add_track_record fp fo kw tr st seg).waypoints = st.waypoints := by
  unfold add_track_record; split <;> rfl

theorem add_route_record_tracks (geo : Geo) (fp fo : String) (kw : List String)
    (st : GPXProcessor) (route : List TrkPt) :
    (add_route_record geo fp fo kw st route).tracks = st.tracks := by
  unfold add_route_record; split <;> rfl

theorem add_route_record_waypoints (geo : Geo) (fp fo : String) (kw : List String)
    (st : GPXProcessor) (route : List TrkPt) :
    (add_route_record geo fp fo kw st route).waypoints = st.waypoints := by
  unfold add_route_record; split <;> rfl

theorem add_waypoint_record_tracks (fp fo : String) (kw : List String)
    (st : GPXProcessor) (w : RawWpt) :
    (add_waypoint_record fp fo kw st w).tracks = st.tracks := rfl

theorem add_waypoint_record_routes (fp fo : String) (kw : List String)
    (st : GPXProcessor) (w : RawWpt) :
    (add_waypoint_record fp fo kw st w).routes = st.routes := rfl

theorem add_track_record_tracks_mem (fp fo : String) (kw : List String) (tr : GPXTrack)
    (st : GPXProcessor) (seg : List TrkPt) :
    ∀ r ∈ (add_track_record fp fo kw tr st seg).tracks,
      r ∈ st.tracks ∨ (r.folder_path = fo ∧ r.file_path = fp) := by
  intro r hr
  unfold add_track_record at hr
  split at hr
  · simp only [List.mem_append, List.mem_singleton] at hr
    rcases hr with h | h
    · exact Or.inl h
    · subst h; exact Or.inr ⟨rfl, rfl⟩
  · exact Or.inl hr

theorem add_route_record_routes_mem (geo : Geo) (fp fo : String) (kw : List String)
    (st : GPXProcessor) (route : List TrkPt) :
    ∀ r ∈ (add_route_record geo fp fo kw st route).routes,
      r ∈ st.routes ∨ (r.folder_path = fo ∧ r.file_path = fp) := by
  intro r hr
  unfold add_route_record at hr
  split at hr
  · simp only [List.mem_append, List.mem_singleton] at hr
    rcases hr with h | h
    · exact Or.inl h
    · subst h; exact Or.inr ⟨rfl, rfl⟩
  · exact Or.inl hr

theorem add_waypoint_record_waypoints_mem (fp fo : String) (kw : List String)
    (st : GPXProcessor) (w : RawWpt) :
    ∀ r ∈ (add_waypoint_record fp fo kw st w).waypoints,
      r ∈ st.waypoints ∨ (r.folder_path = fo ∧ r.file_path = fp) := by
  intro r hr
  unfold add_waypoint_record at hr
  simp only [List.mem_append, List.mem_singleton] at hr
  rcases hr with h | h
  · exact Or.inl h
  · subst h; exact Or.inr ⟨rfl, rfl⟩

theorem process_gpx_file_skip (geo : Geo) (st : GPXProcessor)
    (file : String × Except String GPXDoc) (sel : List String)
    (h : dirname file.1 ∉ sel) :
    process_gpx_file geo st file sel = st := by
  unfold process_gpx_file
  simp only
  rw [if_pos h]

theorem process_gpx_file_ok (geo : Geo) (st : GPXProcessor) (fp : String)
    (gpx : GPXDoc) (sel : List String) (h : dirname fp ∈ sel) :
    process_gpx_file geo st (fp, Except.ok gpx) sel =
      gpx.waypoints.foldl (add_waypoint_record fp (dirname fp) (extract_keywords fp))
        (gpx.routes.foldl (add_route_record geo fp (dirname fp) (extract_keywords fp))
          (gpx.tracks.foldl (fun st track => track.segments.foldl
            (add_track_record fp (dirname fp) (extract_keywords fp) track) st) st)) := by
  unfold process_gpx_file
  simp only
  rw [if_neg (not_not_intro h)]

theorem process_gpx_file_tracks_mem (geo : Geo) (st : GPXProcessor)
    (file : String × Except String GPXDoc) (sel : List String) :
    ∀ r ∈ (process_gpx_file geo st file sel).tracks,
      r ∈ st.tracks ∨ (r.folder_path = dirname r.file_path ∧ r.folder_path ∈ sel) := by
  intro r hr
  rcases file with ⟨fp, content⟩
  by_cases hmem : dirname fp ∈ sel
  · cases content with
    | error e => rw [process_gpx_file_error] at hr; exact Or.inl hr
    | ok gpx =>
        rw [process_gpx_file_ok geo st fp gpx sel hmem] at hr
        rw [foldl_proj_const GPXProcessor.tracks _
          (fun st w => add_waypoint_record_tracks fp (dirname fp) (extract_keywords fp) st w)] at hr
        rw [foldl_proj_const GPXProcessor.tracks _
          (fun st route => add_route_record_tracks geo fp (dirname fp) (extract_keywords fp) st route)] at hr
        have := foldl_mem_or GPXProcessor.tracks
          (fun r => r.folder_path = dirname fp ∧ r.file_path = fp)
          (fun st track => track.segments.foldl
            (add_track_record fp (dirname fp) (extract_keywords fp) track) st)
          (fun st track => foldl_mem_or GPXProcessor.tracks _
            (add_track_record fp (dirname fp) (extract_keywords fp) track)
            (fun st seg => add_track_record_tracks_mem fp (dirname fp)
              (extract_keywords fp) track st seg) track.segments st)
          gpx.tracks st r hr
        rcases this with h | ⟨h1, h2⟩
        · exact Or.inl h
        · exact Or.inr ⟨by rw [h1, h2], by rw [h1]; exact hmem⟩
  · rw [process_gpx_file_skip geo st (fp, content) sel hmem] at hr
    exact Or.inl hr

theorem process_gpx_file_routes_mem (geo : Geo) (st : GPXProcessor)
    (file : String × Except String GPXDoc) (sel : List String) :
    ∀ r ∈ (process_gpx_file geo st file sel).routes,
      r ∈ st.routes ∨ (r.folder_path = dirname r.file_path ∧ r.folder_path ∈ sel) := by
  intro r hr
  rcases file with ⟨fp, content⟩
  by_cases hmem : dirname fp ∈ sel
  · cases content with
    | error e => rw [process_gpx_file_error] at hr; exact Or.inl hr
    | ok gpx =>
        rw [process_gpx_file_ok geo st fp gpx sel hmem] at hr
        rw [foldl_proj_const GPXProcessor.routes _
          (fun st w => add_waypoint_record_routes fp (dirname fp) (extract_keywords fp) st w)] at hr
        have := foldl_mem_or GPXProcessor.routes
          (fun r => r.folder_path = dirname fp ∧ r.file_path = fp)
          (add_route_record geo fp (dirname fp) (extract_keywords fp))
          (fun st route => add_route_record_routes_mem geo fp (dirname fp)
            (extract_keywords fp) st route)
          gpx.routes _ r hr
        rcases this with h | ⟨h1, h2⟩
        · rw [foldl_proj_const GPXProcessor.routes _
            (fun st track => foldl_proj_const GPXProcessor.routes _
              (fun st seg => add_track_record_routes fp (dirname fp)
                (extract_keywords fp) track st seg) track.segments st)] at h
          exact Or.inl h
        · exact Or.inr ⟨by rw [h1, h2], by rw [h1]; exact hmem⟩
  · rw [process_gpx_file_skip geo st (fp, content) sel hmem] at hr
    exact Or.inl hr

theorem process_gpx_file_waypoints_mem (geo : Geo) (st : GPXProcessor)
    (file : String × Except String GPXDoc) (sel : List String) :
    ∀ r ∈ (process_gpx_file geo st file sel).waypoints,
      r ∈ st.waypoints ∨ (r.folder_path = dirname r.file_path ∧ r.folder_path ∈ sel) := by
  intro r hr
  rcases file with ⟨fp, content⟩
  by_cases hmem : dirname fp ∈ sel
  · cases content with
    | error e => rw [process_gpx_file_error] at hr; exact Or.inl hr
    | ok gpx =>
        rw [process_gpx_file_ok geo st fp gpx sel hmem] at hr
        have := foldl_mem_or GPXProcessor.waypoints
          (fun r => r.folder_path = dirname fp ∧ r.file_path = fp)
          (add_waypoint_record fp (dirname fp) (extract_keywords fp))
          (fun st w => add_waypoint_record_waypoints_mem fp (dirname fp)
            (extract_keywords fp) st w)
          gpx.waypoints _ r hr
        rcases this with h | ⟨h1, h2⟩
        · rw [foldl_proj_const GPXProcessor.waypoints _
            (fun st route => add_route_record_waypoints geo fp (dirname fp)
              (extract_keywords fp) st route)] at h
          rw [foldl_proj_const GPXProcessor.waypoints _
            (fun st track => foldl_proj_const GPXProcessor.waypoints _
              (fun st seg => add_track_record_waypoints fp (dirname fp)
                (extract_keywords fp) track st seg) track.segments st)] at h
          exact Or.inl h
        · exact Or.inr ⟨by rw [h1, h2], by rw [h1]; exact hmem⟩
  · rw [process_gpx_file_skip geo st (fp, content) sel hmem] at hr
    exact Or.inl hr

/-- Claim C10: after every `process_folders` call, each record's
`folder_path` is the direct parent directory of its `file_path` and is a
member of the `folders` argument; and the result does not depend on the
collections held before the call (they are cleared first). -/
theorem C10_collection_invariant (geo : Geo) (fs : Dir) (st st' : GPXProcessor)
    (folders : List String) :
    process_folders geo fs st folders = process_folders geo fs st' folders ∧
    (∀ r ∈ (process_folders geo fs st folders).tracks,
      r.folder_path = dirname r.file_path ∧ r.folder_path ∈ folders) ∧
    (∀ r ∈ (process_folders geo fs st folders).routes,
      r.folder_path = dirname r.file_path ∧ r.folder_path ∈ folders) ∧
    (∀ r ∈ (process_folders geo fs st folders).waypoints,
      r.folder_path = dirname r.file_path ∧ r.folder_path ∈ folders) := by
  refine ⟨rfl, ?_, ?_, ?_⟩
  · intro r hr
    unfold process_folders at hr
    simp only at hr
    rcases foldl_mem_or GPXProcessor.tracks
      (fun r => r.folder_path = dirname r.file_path ∧ r.folder_path ∈ folders)
      (fun st f => process_gpx_file geo st f folders)
      (fun st f => process_gpx_file_tracks_mem geo st f folders)
      (find_gpx_files fs folders) GPXProcessor.empty r hr with h | h
    · simp [GPXProcessor.empty] at h
    · exact h
  · intro r hr
    unfold process_folders at hr
    simp only at hr
    rcases foldl_mem_or GPXProcessor.routes
      (fun r => r.folder_path = dirname r.file_path ∧ r.folder_path ∈ folders)
      (fun st f => process_gpx_file geo st f folders)
      (fun st f => process_gpx_file_routes_mem geo st f folders)
      (find_gpx_files fs folders) GPXProcessor.empty r hr with h | h
    · simp [GPXProcessor.empty] at h
    · exact h
  · intro r hr
    unfold process_folders at hr
    simp only at hr
    rcases foldl_mem_or GPXProcessor.waypoints
      (fun r => r.folder_path = dirname r.file_path ∧ r.folder_path ∈ folders)
      (fun st f => process_gpx_file geo st f folders)
      (fun st f => process_gpx_file_waypoints_mem geo st f folders)
      (find_gpx_files fs folders) GPXProcessor.empty r hr with h | h
    · simp [GPXProcessor.empty] at h
    · exact h

theorem C10_witness :
    wrec10.folder_path = dirname wrec10.file_path ∧ wrec10.folder_path ∈ ["A"] := by
  have hfind : find_gpx_files fs10 ["A"] = [("A/x.gpx", Except.ok wdoc0)] := by
    simp only [find_gpx_files, find_dir, find_dir_forest, os_walk, os_walk_forest, fs10,
      List.foldl]
    rfl
  have hw : (process_folders geo0 fs10 GPXProcessor.empty ["A"]).waypoints = [wrec10] := by
    simp only [process_folders, hfind]
    rfl
  exact (C10_collection_invariant geo0 fs10 GPXProcessor.empty GPXProcessor.empty ["A"]).2.2.2
    wrec10 (by rw [hw]; exact List.mem_singleton_self wrec10)

/- Claim C4: profiler behaviour on parse failure and on empty documents -/

theorem seg_fold_all_empty (geo : Geo) :
    ∀ (sl : List (List TrkPt)) (acc : List ℚ × List ℚ), (∀ seg ∈ sl, seg = []) →
      sl.foldl (fun acc seg => profile_segment geo seg acc) acc = acc := by
  intro sl
  induction sl with
  | nil => intro acc _; rfl
  | cons seg rest ih =>
      intro acc h
      rw [List.foldl_cons, h seg (List.mem_cons_self _ _)]
      exact ih acc (fun s hs => h s (List.mem_cons_of_mem _ hs))

theorem profile_no_points (geo : Geo) (gpx : GPXDoc)
    (h : ∀ tr ∈ gpx.tracks, ∀ seg ∈ tr.segments, seg = []) :
    calculate_elevation_profile_from_gpx geo (Except.ok gpx) = ([0], []) := by
  unfold calculate_elevation_profile_from_gpx
  suffices h2 : ∀ (l : List GPXTrack) (acc : List ℚ × List ℚ),
      (∀ tr ∈ l, ∀ seg ∈ tr.segments, seg = []) →
      l.foldl (fun acc tr => tr.segments.foldl (fun acc seg => profile_segment geo seg acc) acc)
        acc = acc by
    exact h2 gpx.tracks ([0], []) h
  intro l
  induction l with
  | nil => intro acc _; rfl
  | cons tr rest ih =>
      intro acc hall
      rw [List.foldl_cons, seg_fold_all_empty geo tr.segments acc
        (hall tr (List.mem_cons_self _ _))]
      exact ih acc (fun t ht => hall t (List.mem_cons_of_mem _ ht))

/-- Claim C4, counterexample to the claim as stated: on a successfully
parsed document with no track points the profiler returns `([0.0], [])`
(the distance list is initialised with `0.0` before the loops), which is
not a pair of empty arrays. -/
theorem C4_counterexample :
    calculate_elevation_profile_from_gpx geo0 (Except.ok (⟨[], [], []⟩ : GPXDoc)) = ([0], []) ∧
    (([0], []) : List ℚ × List ℚ) ≠ (([], []) : List ℚ × List ℚ) := by
  exact ⟨rfl, by simp⟩

/-- Claim C4 (amended): a file whose parse fails yields two empty arrays
(no error is raised); a file whose parsed document contains no track
points yields `distances = [0.0]` and an empty elevations array (again no
error) — not two empty arrays. -/
theorem C4_profile_empty_cases :
    (∀ (geo : Geo) (e : String),
      calculate_elevation_profile_from_gpx geo (Except.error e) = ([], [])) ∧
    (∀ (geo : Geo) (gpx : GPXDoc),
      (∀ tr ∈ gpx.tracks, ∀ seg ∈ tr.segments, seg = []) →
      calculate_elevation_profile_from_gpx geo (Except.ok gpx) = ([0], [])) := by
  exact ⟨fun geo e => rfl, fun geo gpx h => profile_no_points geo gpx h⟩

theorem C4_witness :
    calculate_elevation_profile_from_gpx geo0
      (Except.ok (⟨[⟨[[], []], 0, none⟩], [], []⟩ : GPXDoc)) = ([0], []) :=
  C4_profile_empty_cases.2 geo0 _ (by decide)

/- Claim C5: shape of the elevation profile arrays -/

theorem profile_rest_lengths (geo : Geo) :
    ∀ (rest : List TrkPt) (prev : TrkPt) (ds es : List ℚ),
      (profile_rest geo prev rest ds es).1.length = ds.length + rest.length ∧
      (profile_rest geo prev rest ds es).2.length = es.length + rest.length := by
  intro rest
  induction rest with
  | nil => intro prev ds es; exact ⟨rfl, rfl⟩
  | cons p ps ih =>
      intro prev ds es
      have h := ih p (ds ++ [ds.getLastD 0 + geo.dist2d prev p / 1000])
        (es ++ [p.elevation.getD 0])
      simp only [profile_rest, h.1, h.2, List.length_append, List.length_cons,
        List.length_nil]
      omega

theorem profile_rest_head (geo : Geo) :
    ∀ (rest : List TrkPt) (prev : TrkPt) (d0 : ℚ) (ds : List ℚ) (es : List ℚ),
      (profile_rest geo prev rest (d0 :: ds) es).1.head? = some d0 ∧
      (profile_rest geo prev rest (d0 :: ds) es).1 ≠ [] := by
  intro rest
  induction rest with
  | nil => intro prev d0 ds es; exact ⟨rfl, by simp [profile_rest]⟩
  | cons p ps ih =>
      intro prev d0 ds es
      simp only [profile_rest]
      exact ih p d0 (ds ++ [(d0 :: ds).getLastD 0 + geo.dist2d prev p / 1000]) _

theorem chain_append_last (l : List ℚ) (x : ℚ) (_hne : l ≠ [])
    (hc : l.Chain' (· ≤ ·)) (hx : l.getLastD 0 ≤ x) :
    (l ++ [x]).Chain' (· ≤ ·) := by
  rw [List.chain'_append]
  refine ⟨hc, List.chain'_singleton x, ?_⟩
  intro a ha b hb
  simp only [List.head?_cons, Option.mem_def, Option.some.injEq] at hb
  subst hb
  have : l.getLast? = some a := ha
  rw [List.getLastD_eq_getLast?, this] at hx
  exact hx

theorem profile_rest_chain (geo : Geo) (hd : ∀ a b, 0 ≤ geo.dist2d a b) :
    ∀ (rest : List TrkPt) (prev : TrkPt) (ds es : List ℚ),
      ds ≠ [] → ds.Chain' (· ≤ ·) →
      (profile_rest geo prev rest ds es).1.Chain' (· ≤ ·) := by
  intro rest
  induction rest with
  | nil => intro prev ds es _ hc; exact hc
  | cons p ps ih =>
      intro prev ds es hne hc
      simp only [profile_rest]
      refine ih p _ _ (by simp) ?_
      refine chain_append_last ds _ hne hc ?_
      have h1 := hd prev p
      have h2 : 0 ≤ geo.dist2d prev p / 1000 := by positivity
      linarith

theorem profile_rest_ne_nil (geo : Geo) (rest : List TrkPt) (prev : TrkPt)
    (ds es : List ℚ) (hne : ds ≠ []) :
    (profile_rest geo prev rest ds es).1 ≠ [] := by
  have h := (profile_rest_lengths geo rest prev ds es).1
  intro hcon
  rw [hcon] at h
  simp only [List.length_nil] at h
  have : ds.length ≠ 0 := fun h0 => hne (List.eq_nil_of_length_eq_zero h0)
  omega

theorem profile_segment_lengths (geo : Geo) (pts : List TrkPt) (acc : List ℚ × List ℚ) :
    (profile_segment geo pts acc).1.length + (if pts.isEmpty then 0 else 1) =
      acc.1.length + pts.length ∧
    (profile_segment geo pts acc).2.length = acc.2.length + pts.length := by
  cases pts with
  | nil => simp [profile_segment]
  | cons p ps =>
      obtain ⟨h1, h2⟩ := profile_rest_lengths geo ps p acc.1 (acc.2 ++ [p.elevation.getD 0])
      rw [List.length_append, List.length_singleton] at h2
      simp only [profile_segment]
      constructor
      · simp only [List.isEmpty_cons, List.length_cons, Bool.false_eq_true, if_false]
        omega
      · simp only [List.length_cons]
        omega

theorem profile_segment_head (geo : Geo) (pts : List TrkPt) (acc : List ℚ × List ℚ)
    (hne : acc.1 ≠ []) (hh : acc.1.head? = some 0) :
    (profile_segment geo pts acc).1 ≠ [] ∧
    (profile_segment geo pts acc).1.head? = some 0 := by
  rcases acc with ⟨ds0, es0⟩
  cases pts with
  | nil => exact ⟨hne, hh⟩
  | cons p ps =>
      cases ds0 with
      | nil => exact absurd rfl hne
      | cons d0 ds =>
          have hd0 : d0 = 0 := by simpa using hh
          subst hd0
          have h1 := profile_rest_head geo ps p 0 ds (es0 ++ [p.elevation.getD 0])
          exact ⟨h1.2, h1.1⟩

theorem profile_segment_chain (geo : Geo) (hd : ∀ a b, 0 ≤ geo.dist2d a b)
    (pts : List TrkPt) (acc : List ℚ × List ℚ)
    (hne : acc.1 ≠ []) (hc : acc.1.Chain' (· ≤ ·)) :
    (profile_segment geo pts acc).1 ≠ [] ∧
    (profile_segment geo pts acc).1.Chain' (· ≤ ·) := by
  cases pts with
  | nil => exact ⟨hne, hc⟩
  | cons p ps =>
      refine ⟨profile_rest_ne_nil geo ps p acc.1 _ hne, ?_⟩
      exact profile_rest_chain geo hd ps p acc.1 (acc.2 ++ [p.elevation.getD 0]) hne hc

theorem seg_fold_lengths (geo : Geo) :
    ∀ (sl : List (List TrkPt)) (acc : List ℚ × List ℚ),
      (sl.foldl (fun acc seg => profile_segment geo seg acc) acc).1.length +
        (sl.filter (fun s => !s.isEmpty)).length =
        acc.1.length + (sl.map List.length).sum ∧
      (sl.foldl (fun acc seg => profile_segment geo seg acc) acc).2.length =
        acc.2.length + (sl.map List.length).sum := by
  intro sl
  induction sl with
  | nil => intro acc; simp
  | cons seg rest ih =>
      intro acc
      have hseg := profile_segment_lengths geo seg acc
      have hrest := ih (profile_segment geo seg acc)
      rw [List.foldl_cons]
      constructor
      · rw [List.map_cons, List.sum_cons, List.filter_cons]
        by_cases he : seg.isEmpty
        · rw [if_pos he] at hseg
          have hlen : seg.length = 0 := by
            cases seg
            · rfl
            · simp [List.isEmpty_cons] at he
          simp only [he, Bool.not_true, Bool.false_eq_true, if_false]
          have h1 := hrest.1
          have h2 := hseg.1
          omega
        · rw [if_neg he] at hseg
          have he2 : (!seg.isEmpty) = true := by
            simp only [Bool.not_eq_true']
            exact Bool.not_eq_true _ |>.mp he
          simp only [he2, if_true, List.length_cons]
          have h1 := hrest.1
          have h2 := hseg.1
          omega
      · rw [List.map_cons, List.sum_cons, hrest.2, hseg.2]
        omega

theorem seg_fold_head (geo : Geo) :
    ∀ (sl : List (List TrkPt)) (acc : List ℚ × List ℚ),
      acc.1 ≠ [] → acc.1.head? = some 0 →
      (sl.foldl (fun acc seg => profile_segment geo seg acc) acc).1 ≠ [] ∧
      (sl.foldl (fun acc seg => profile_segment geo seg acc) acc).1.head? = some 0 := by
  intro sl
  induction sl with
  | nil => intro acc h1 h2; exact ⟨h1, h2⟩
  | cons seg rest ih =>
      intro acc h1 h2
      have h := profile_segment_head geo seg acc h1 h2
      rw [List.foldl_cons]
      exact ih _ h.1 h.2

theorem seg_fold_chain (geo : Geo) (hd : ∀ a b, 0 ≤ geo.dist2d a b) :
    ∀ (sl : List (List TrkPt)) (acc : List ℚ × List ℚ),
      acc.1 ≠ [] → acc.1.Chain' (· ≤ ·) →
      (sl.foldl (fun acc seg => profile_segment geo seg acc) acc).1 ≠ [] ∧
      (sl.foldl (fun acc seg => profile_segment geo seg acc) acc).1.Chain' (· ≤ ·) := by
  intro sl
  induction sl with
  | nil => intro acc h1 h2; exact ⟨h1, h2⟩
  | cons seg rest ih =>
      intro acc h1 h2
      have h := profile_segment_chain geo hd seg acc h1 h2
      rw [List.foldl_cons]
      exact ih _ h.1 h.2

theorem track_fold_lengths (geo : Geo) :
    ∀ (tl : List GPXTrack) (acc : List ℚ × List ℚ),
      (tl.foldl (fun acc tr => tr.segments.foldl
          (fun acc seg => profile_segment geo seg acc) acc) acc).1.length +
        (tl.map (fun tr => (tr.segments.filter (fun s => !s.isEmpty)).length)).sum =
        acc.1.length + (tl.map (fun tr => (tr.segments.map List.length).sum)).sum ∧
      (tl.foldl (fun acc tr => tr.segments.foldl
          (fun acc seg => profile_segment geo seg acc) acc) acc).2.length =
        acc.2.length + (tl.map (fun tr => (tr.segments.map List.length).sum)).sum := by
  intro tl
  induction tl with
  | nil => intro acc; simp
  | cons tr rest ih =>
      intro acc
      have htr := seg_fold_lengths geo tr.segments acc
      have hrest := ih (tr.segments.foldl (fun acc seg => profile_segment geo seg acc) acc)
      rw [List.foldl_cons]
      constructor
      · rw [List.map_cons, List.sum_cons, List.map_cons, List.sum_cons]
        have h1 := hrest.1
        have h2 := htr.1
        omega
      · rw [List.map_cons, List.sum_cons, hrest.2, htr.2]
        omega

theorem track_fold_head (geo : Geo) :
    ∀ (tl : List GPXTrack) (acc : List ℚ × List ℚ),
      acc.1 ≠ [] → acc.1.head? = some 0 →
      (tl.foldl (fun acc tr => tr.segments.foldl
          (fun acc seg => profile_segment geo seg acc) acc) acc).1 ≠ [] ∧
      (tl.foldl (fun acc tr => tr.segments.foldl
          (fun acc seg => profile_segment geo seg acc) acc) acc).1.head? = some 0 := by
  intro tl
  induction tl with
  | nil => intro acc h1 h2; exact ⟨h1, h2⟩
  | cons tr rest ih =>
      intro acc h1 h2
      have h := seg_fold_head geo tr.segments acc h1 h2
      rw [List.foldl_cons]
      exact ih _ h.1 h.2

theorem track_fold_chain (geo : Geo) (hd : ∀ a b, 0 ≤ geo.dist2d a b) :
    ∀ (tl : List GPXTrack) (acc : List ℚ × List ℚ),
      acc.1 ≠ [] → acc.1.Chain' (· ≤ ·) →
      (tl.foldl (fun acc tr => tr.segments.foldl
          (fun acc seg => profile_segment geo seg acc) acc) acc).1 ≠ [] ∧
      (tl.foldl (fun acc tr => tr.segments.foldl
          (fun acc seg => profile_segment geo seg acc) acc) acc).1.Chain' (· ≤ ·) := by
  intro tl
  induction tl with
  | nil => intro acc h1 h2; exact ⟨h1, h2⟩
  | cons tr rest ih =>
      intro acc h1 h2
      have h := seg_fold_chain geo hd tr.segments acc h1 h2
      rw [List.foldl_cons]
      exact ih _ h.1 h.2

/-- Claim C5, counterexample to the claim as stated: a parsed document
with two tracks of one single-point segment each produces 1 distance but
2 elevations — the two arrays do not have the same length (the
per-segment loop appends one fewer distance than elevations for every
non-empty segment after the first). -/
theorem C5_length_counterexample :
    ¬ ((calculate_elevation_profile_from_gpx geo0 (Except.ok doc_two_tracks)).1.length =
       (calculate_elevation_profile_from_gpx geo0 (Except.ok doc_two_tracks)).2.length) := by
  have h : calculate_elevation_profile_from_gpx geo0 (Except.ok doc_two_tracks) =
      ([0], [7, 7]) := rfl
  rw [h]
  simp

/-- Claim C5 (amended): the distance sequence is always monotonically
non-decreasing (given that the external planar distance is non-negative);
on a successful parse it starts at 0 and satisfies
`len(distances) + (number of non-empty segments) = len(elevations) + 1`
(so the lengths agree exactly when the document has exactly one non-empty
segment); on a parse failure both arrays are empty. -/
theorem C5_profile_shape (geo : Geo) (content : Except String GPXDoc) :
    ((∀ a b, 0 ≤ geo.dist2d a b) →
      (calculate_elevation_profile_from_gpx geo content).1.Chain' (· ≤ ·)) ∧
    (∀ gpx, content = Except.ok gpx →
      (calculate_elevation_profile_from_gpx geo content).1.head? = some 0 ∧
      (calculate_elevation_profile_from_gpx geo content).1.length +
          nonempty_segment_count gpx =
        (calculate_elevation_profile_from_gpx geo content).2.length + 1) ∧
    (∀ e, content = Except.error e →
      calculate_elevation_profile_from_gpx geo content = ([], [])) := by
  refine ⟨?_, ?_, ?_⟩
  · intro hd
    cases content with
    | error e => simp [calculate_elevation_profile_from_gpx]
    | ok gpx =>
        have h := track_fold_chain geo hd gpx.tracks ([0], []) (by simp)
          (List.chain'_singleton 0)
        exact h.2
  · intro gpx hc
    subst hc
    have hcalc : calculate_elevation_profile_from_gpx geo (Except.ok gpx) =
        gpx.tracks.foldl (fun acc tr => tr.segments.foldl
          (fun acc seg => profile_segment geo seg acc) acc) ([0], []) := rfl
    have hk := track_fold_head geo gpx.tracks ([0], []) (by simp) rfl
    have hl := track_fold_lengths geo gpx.tracks ([0], [])
    rw [hcalc]
    refine ⟨hk.2, ?_⟩
    unfold nonempty_segment_count
    have h1 := hl.1
    have h2 := hl.2
    simp only [List.length_singleton, List.length_nil] at h1 h2
    omega
  · intro e hc
    subst hc
    rfl

theorem C5_witness :
    (calculate_elevation_profile_from_gpx geo0 (Except.ok doc_two_tracks)).1.Chain' (· ≤ ·) ∧
    (calculate_elevation_profile_from_gpx geo0 (Except.ok doc_two_tracks)).1.head? = some 0 ∧
    (calculate_elevation_profile_from_gpx geo0 (Except.ok doc_two_tracks)).1.length +
        nonempty_segment_count doc_two_tracks =
      (calculate_elevation_profile_from_gpx geo0 (Except.ok doc_two_tracks)).2.length + 1 := by
  have h := C5_profile_shape geo0 (Except.ok doc_two_tracks)
  exact ⟨h.1 (fun a b => by simp [geo0]),
    (h.2.1 doc_two_tracks rfl).1, (h.2.1 doc_two_tracks rfl).2⟩

/- Claim C9: map center and zoom fallback -/

/-- Claim C9: the geocoder's failure (exception, timeout, non-200 status,
empty result) yields no coordinates; whenever no search location is given,
the search string is empty, or geocoding yields no result, `create_map`
centers the map at `get_center_point` with the country-scale default
zoom 6; `get_center_point` is the first point of the first entity of the
first non-empty collection, scanning tracks, routes, then waypoints (for
records with points, as the Aggregator produces); and the center is
`(0, 0)` when all three collections are empty. -/
theorem C9_center_zoom_fallback :
    (∀ e : String, geocode_location (Except.error e) = none) ∧
    (∀ (st : GPXProcessor) (geocoder : String → Except String GeoResp),
      create_map_view st none geocoder = (get_center_point st, 6)) ∧
    (∀ (st : GPXProcessor) (geocoder : String → Except String GeoResp),
      create_map_view st (some "") geocoder = (get_center_point st, 6)) ∧
    (∀ (st : GPXProcessor) (s : String) (geocoder : String → Except String GeoResp),
      geocode_location (geocoder s) = none →
      create_map_view st (some s) geocoder = (get_center_point st, 6)) ∧
    (∀ st : GPXProcessor,
      (∀ t ∈ st.tracks, t.points ≠ []) → (∀ r ∈ st.routes, r.points ≠ []) →
      get_center_point st = first_entity_center st) ∧
    (∀ st : GPXProcessor, st.tracks = [] → st.routes = [] → st.waypoints = [] →
      get_center_point st = (0, 0)) := by
  refine ⟨fun e => rfl, fun st g => rfl, fun st g => rfl, ?_, ?_, ?_⟩
  · intro st s g h
    simp only [create_map_view]
    by_cases hs : s = ""
    · rw [if_neg (by simp [hs])]
    · rw [if_pos hs, h]
  · intro st h1 h2
    rcases st with ⟨tks, rts, wps⟩
    cases tks with
    | cons t ts =>
        obtain ⟨p, rest, hp⟩ := List.exists_cons_of_ne_nil
          (h1 t (List.mem_cons_self _ _))
        simp only [get_center_point, first_entity_center, List.filterMap_cons, hp,
          List.cons_append]
    | nil =>
        cases rts with
        | cons r rs =>
            obtain ⟨p, rest, hp⟩ := List.exists_cons_of_ne_nil
              (h2 r (List.mem_cons_self _ _))
            simp only [get_center_point, first_entity_center, List.filterMap_cons, hp,
              List.filterMap_nil, List.nil_append, List.cons_append]
        | nil =>
            cases wps with
            | cons w ws =>
                simp only [get_center_point, first_entity_center, List.filterMap_nil,
                  List.map_cons, List.nil_append]
            | nil => rfl
  · intro st h1 h2 h3
    rcases st with ⟨tks, rts, wps⟩
    simp only at h1 h2 h3
    subst h1; subst h2; subst h3
    rfl

theorem C9_witness :
    create_map_view ⟨[], [], [wrec10]⟩ (some "nowhere")
        (fun _ => Except.error "timeout") =
      (get_center_point ⟨[], [], [wrec10]⟩, 6) ∧
    get_center_point ⟨[], [], [wrec10]⟩ = first_entity_center ⟨[], [], [wrec10]⟩ := by
  constructor
  · exact C9_center_zoom_fallback.2.2.2.1 ⟨[], [], [wrec10]⟩ "nowhere"
      (fun _ => Except.error "timeout") rfl
  · exact C9_center_zoom_fallback.2.2.2.2.1 ⟨[], [], [wrec10]⟩
      (by intro t ht; simp at ht) (by intro r hr; simp at hr)

/- Claim C6: deterministic color assignment -/

theorem palette_lookup_aux (pal : List String) :
    ∀ (l : List String) (k : ℕ) (f : String), f ∈ l →
      List.lookup f ((l.enumFrom k).map (fun p => (p.2, pal.getD (p.1 % pal.length) ""))) =
        some (pal.getD ((k + l.indexOf f) % pal.length) "") := by
  intro l
  induction l with
  | nil => intro k f hf; simp at hf
  | cons a t ih =>
      intro k f hf
      simp only [List.enumFrom, List.map_cons]
      by_cases hfa : a = f
      · subst hfa
        simp [List.lookup, List.indexOf_cons_self]
      · have hf' : f ∈ t := by
          rcases List.mem_cons.mp hf with h | h
          · exact absurd h.symm hfa
          · exact h
        have hneK : (a == f) = false := beq_eq_false_iff_ne.mpr hfa
        have hneQ : (f == a) = false := beq_eq_false_iff_ne.mpr (fun h => hfa h.symm)
        rw [List.lookup, hneQ]
        simp only
        rw [ih (k + 1) f hf']
        have hidx : (a :: t).indexOf f = t.indexOf f + 1 := by
          simp [List.indexOf_cons, hneK]
        rw [hidx]
        have harith : k + 1 + List.indexOf f t = k + (List.indexOf f t + 1) := by omega
        rw [harith]

theorem sorted_distinct_sorted (l : List String) :
    (sorted_distinct l).Sorted (· ≤ ·) := by
  have h := @List.sorted_mergeSort String (fun a b : String => decide (a ≤ b))
    (fun a b c hab hbc => by
      simp only [decide_eq_true_eq] at *
      exact le_trans hab hbc)
    (fun a b => by simpa using le_total a b)
    l.dedup
  unfold sorted_distinct
  exact h.imp (fun hab => of_decide_eq_true hab)

theorem sorted_distinct_nodup (l : List String) : (sorted_distinct l).Nodup := by
  unfold sorted_distinct
  exact ((List.mergeSort_perm l.dedup _).symm).nodup l.nodup_dedup

theorem sorted_distinct_toFinset (l : List String) :
    (sorted_distinct l).toFinset = l.toFinset := by
  unfold sorted_distinct
  rw [List.toFinset_eq_of_perm _ _ (List.mergeSort_perm l.dedup _)]
  ext x
  simp [List.mem_toFinset, List.mem_dedup]

theorem sorted_distinct_mem (l : List String) (f : String) :
    f ∈ sorted_distinct l ↔ f ∈ l := by
  unfold sorted_distinct
  rw [(List.mergeSort_perm l.dedup _).mem_iff, List.mem_dedup]

theorem sorted_distinct_eq_of_toFinset_eq (l₁ l₂ : List String)
    (h : l₁.toFinset = l₂.toFinset) :
    sorted_distinct l₁ = sorted_distinct l₂ := by
  refine List.eq_of_perm_of_sorted
    (List.perm_of_nodup_nodup_toFinset_eq (sorted_distinct_nodup l₁) (sorted_distinct_nodup l₂) ?_)
    (sorted_distinct_sorted l₁) (sorted_distinct_sorted l₂)
  rw [sorted_distinct_toFinset, sorted_distinct_toFinset, h]

/-- Claim C6: the folder palette has 10 entries and the file palette 27;
each identity is mapped to `palette[i % len(palette)]` where `i` is its
position in the lexicographically sorted list of distinct identities; and
the mapping is a pure function of the identity set (two states whose
identity sets agree, regardless of record order, produce identical color
mappings). -/
theorem C6_color_assignment :
    folder_palette.length = 10 ∧ gpx_palette.length = 27 ∧
    (∀ (st : GPXProcessor) (f : String), f ∈ folder_identities st →
      List.lookup f (get_folder_colors st) =
        some (folder_palette.getD
          ((sorted_distinct (folder_identities st)).indexOf f % folder_palette.length) "")) ∧
    (∀ (st : GPXProcessor) (f : String), f ∈ gpx_identities st →
      List.lookup f (get_gpx_colors st) =
        some (gpx_palette.getD
          ((sorted_distinct (gpx_identities st)).indexOf f % gpx_palette.length) "")) ∧
    (∀ st st' : GPXProcessor,
      (folder_identities st).toFinset = (folder_identities st').toFinset →
      get_folder_colors st = get_folder_colors st') ∧
    (∀ st st' : GPXProcessor,
      (gpx_identities st).toFinset = (gpx_identities st').toFinset →
      get_gpx_colors st = get_gpx_colors st') := by
  refine ⟨rfl, rfl, ?_, ?_, ?_, ?_⟩
  · intro st f hf
    have h := palette_lookup_aux folder_palette (sorted_distinct (folder_identities st)) 0 f
      ((sorted_distinct_mem _ f).mpr hf)
    unfold get_folder_colors palette_assign
    rw [List.enum]
    rw [h]
    simp
  · intro st f hf
    have h := palette_lookup_aux gpx_palette (sorted_distinct (gpx_identities st)) 0 f
      ((sorted_distinct_mem _ f).mpr hf)
    unfold get_gpx_colors palette_assign
    rw [List.enum]
    rw [h]
    simp
  · intro st st' h
    unfold get_folder_colors
    rw [sorted_distinct_eq_of_toFinset_eq _ _ h]
  · intro st st' h
    unfold get_gpx_colors
    rw [sorted_distinct_eq_of_toFinset_eq _ _ h]

theorem C6_witness :
    List.lookup "b" (get_folder_colors st_colors) =
      some (folder_palette.getD
        ((sorted_distinct (folder_identities st_colors)).indexOf "b" % folder_palette.length) "") ∧
    get_folder_colors st_colors = get_folder_colors st_colors_rev := by
  constructor
  · exact C6_color_assignment.2.2.1 st_colors "b"
      (by simp [folder_identities, st_colors])
  · exact C6_color_assignment.2.2.2.2.1 st_colors st_colors_rev (by decide)

/- Claim C7: icon resolution -/

theorem get_emoji_icon_match (icon name g k : String) (l₁ l₂ : List (String × String))
    (hic : icon ≠ "") (htab : icon_mapping = l₁ ++ (k, g) :: l₂)
    (hmatch : iconKeyMatches (iconClean icon) (k, g) = true)
    (hbefore : ∀ kv ∈ l₁, iconKeyMatches (iconClean icon) kv = false) :
    get_emoji_for_icon (some icon) name = g := by
  have hfind : icon_mapping.find? (iconKeyMatches (iconClean icon)) = some (k, g) := by
    rw [htab, List.find?_append]
    have hnone : l₁.find? (iconKeyMatches (iconClean icon)) = none := by
      rw [List.find?_eq_none]
      intro x hx
      simp [hbefore x hx]
    rw [hnone, Option.none_or]
    exact List.find?_cons_of_pos _ hmatch
  simp only [get_emoji_for_icon, if_pos hic, hfind, Option.map_some']

theorem get_emoji_no_match (icon name : String)
    (hic : ∀ kv ∈ icon_mapping, iconKeyMatches (iconClean icon) kv = false)
    (hname : ∀ w ∈ splitWords (lowerString name), ∀ kv ∈ icon_mapping,
      nameKeyMatches (cleanWord w) kv = false) :
    get_emoji_for_icon (some icon) name = "📍" := by
  have hfind : icon_mapping.find? (iconKeyMatches (iconClean icon)) = none := by
    rw [List.find?_eq_none]
    intro x hx
    simp [hic x hx]
  have hfs : (splitWords (lowerString name)).findSome?
      (fun w => (icon_mapping.find? (nameKeyMatches (cleanWord w))).map Prod.snd) = none := by
    rw [List.findSome?_eq_none_iff]
    intro w hw
    have h : icon_mapping.find? (nameKeyMatches (cleanWord w)) = none := by
      rw [List.find?_eq_none]
      intro x hx
      simp [hname w hw x hx]
    rw [h]
    rfl
  have hicon_branch :
      (if icon ≠ "" then (icon_mapping.find? (iconKeyMatches (iconClean icon))).map Prod.snd
        else none) = none := by
    by_cases h0 : icon = ""
    · rw [if_neg (by simp [h0])]
    · rw [if_pos h0, hfind]
      rfl
  have hname_branch :
      (if name ≠ "" then (splitWords (lowerString name)).findSome?
        (fun w => (icon_mapping.find? (nameKeyMatches (cleanWord w))).map Prod.snd)
        else none) = none := by
    by_cases hn : name = ""
    · rw [if_neg (by simp [hn])]
    · rw [if_pos hn, hfs]
  simp only [get_emoji_for_icon]
  rw [hicon_branch, hname_branch]

/-- Claim C7: `get_emoji_for_icon` is a (pure, by construction) function
of its two string inputs. When the icon is non-empty and matches some
entry, the value of the **first** matching entry of the ordered table is
returned, whatever the waypoint name — earlier entries win and the name
fallback is never consulted; in particular icon `restaurant` yields the
food glyph for every name. When neither the icon nor any cleaned word of
the name matches an entry, the default location glyph is returned. -/
theorem C7_icon_resolution :
    (∀ (icon name g k : String) (l₁ l₂ : List (String × String)),
      icon ≠ "" → icon_mapping = l₁ ++ (k, g) :: l₂ →
      iconKeyMatches (iconClean icon) (k, g) = true →
      (∀ kv ∈ l₁, iconKeyMatches (iconClean icon) kv = false) →
      get_emoji_for_icon (some icon) name = g) ∧
    (∀ name, get_emoji_for_icon (some "restaurant") name = "🍽️") ∧
    (∀ icon name : String,
      (∀ kv ∈ icon_mapping, iconKeyMatches (iconClean icon) kv = false) →
      (∀ w ∈ splitWords (lowerString name), ∀ kv ∈ icon_mapping,
        nameKeyMatches (cleanWord w) kv = false) →
      get_emoji_for_icon (some icon) name = "📍") := by
  refine ⟨?_, ?_, ?_⟩
  · intro icon name g k l₁ l₂ hic htab hmatch hbefore
    exact get_emoji_icon_match icon name g k l₁ l₂ hic htab hmatch hbefore
  · intro name
    exact get_emoji_icon_match "restaurant" name "🍽️" "restaurant" [] icon_mapping.tail
      (by decide) rfl (by decide) (by simp)
  · intro icon name h1 h2
    exact get_emoji_no_match icon name h1 h2

set_option maxRecDepth 8000 in
theorem C7_witness :
    get_emoji_for_icon (some "museum") "wp" = "🏛️" ∧
    get_emoji_for_icon (some "zzzqqq") "xyzzy" = "📍" := by
  constructor
  · exact C7_icon_resolution.1 "museum" "wp" "🏛️" "museum"
      (icon_mapping.take 76) (icon_mapping.drop 77) (by decide) (by rfl)
      (by decide) (by decide)
  · exact C7_icon_resolution.2.2 "zzzqqq" "xyzzy" (by decide) (by decide)

/- Claim C1: round-trip scenario -/

theorem scenario_find_A :
    find_gpx_files scenario_fs ["A"] =
      [("A/a.gpx", Except.ok a_doc), ("A/B/b.gpx", Except.ok b_doc)] := by
  simp only [find_gpx_files, find_dir, find_dir_forest, os_walk, os_walk_forest, scenario_fs,
    List.foldl]
  rfl

theorem scenario_find_AB :
    find_gpx_files scenario_fs ["A", "A/B"] =
      [("A/a.gpx", Except.ok a_doc), ("A/B/b.gpx", Except.ok b_doc),
       ("A/B/b.gpx", Except.ok b_doc)] := by
  simp only [find_gpx_files, find_dir, find_dir_forest, os_walk, os_walk_forest, scenario_fs,
    List.foldl]
  rfl

theorem scenario_gain : calculate_elevation_gain [ptA1, ptA2, ptA3] = 50 := by
  norm_num [calculate_elevation_gain, elevation_gain_from, elevation_delta, ptA1, ptA2, ptA3]

/-- Claim C1, counterexample to the claim as stated: with selection
`{A, A/B}` the Aggregator produces **2** WaypointRecords, not 1 — the
file `A/B/b.gpx` is enumerated by the walk of `A` and again by the walk
of `A/B`, and each enumeration passes the exact-parent filter. -/
theorem C1_counterexample :
    ¬ ((process_folders geo0 scenario_fs GPXProcessor.empty ["A", "A/B"]).waypoints.length
        = 1) := by
  have h : (process_folders geo0 scenario_fs GPXProcessor.empty ["A", "A/B"]).waypoints.length
      = 2 := by
    simp only [process_folders, scenario_find_AB]
    rfl
  rw [h]
  omega

/-- Claim C1 (amended): with selection `{A}` the Aggregator yields exactly
1 TrackRecord with elevation gain 50 and no WaypointRecords (and no
routes); with selection `{A, A/B}` it yields exactly 1 TrackRecord with
gain 50 and exactly **2** WaypointRecords (the subfolder's file is walked
once under each selected ancestor), each of whose resolved glyph is the
museum glyph. -/
theorem C1_round_trip :
    ((process_folders geo0 scenario_fs GPXProcessor.empty ["A"]).tracks.length = 1 ∧
     (process_folders geo0 scenario_fs GPXProcessor.empty ["A"]).tracks.map
       TrackData.elevation_gain = [50] ∧
     (process_folders geo0 scenario_fs GPXProcessor.empty ["A"]).routes = [] ∧
     (process_folders geo0 scenario_fs GPXProcessor.empty ["A"]).waypoints = []) ∧
    ((process_folders geo0 scenario_fs GPXProcessor.empty ["A", "A/B"]).tracks.length = 1 ∧
     (process_folders geo0 scenario_fs GPXProcessor.empty ["A", "A/B"]).tracks.map
       TrackData.elevation_gain = [50] ∧
     (process_folders geo0 scenario_fs GPXProcessor.empty ["A", "A/B"]).waypoints.length = 2 ∧
     (process_folders geo0 scenario_fs GPXProcessor.empty ["A", "A/B"]).waypoints.map
       (fun w => get_emoji_for_icon w.icon w.name) = ["🏛️", "🏛️"]) := by
  constructor
  · refine ⟨?_, ?_, ?_, ?_⟩
    · simp only [process_folders, scenario_find_A]
      rfl
    · have hmap : (process_folders geo0 scenario_fs GPXProcessor.empty ["A"]).tracks.map
          TrackData.elevation_gain = [calculate_elevation_gain [ptA1, ptA2, ptA3]] := by
        simp only [process_folders, scenario_find_A]
        rfl
      rw [hmap, scenario_gain]
    · simp only [process_folders, scenario_find_A]
      rfl
    · simp only [process_folders, scenario_find_A]
      rfl
  · refine ⟨?_, ?_, ?_, ?_⟩
    · simp only [process_folders, scenario_find_AB]
      rfl
    · have hmap : (process_folders geo0 scenario_fs GPXProcessor.empty ["A", "A/B"]).tracks.map
          TrackData.elevation_gain = [calculate_elevation_gain [ptA1, ptA2, ptA3]] := by
        simp only [process_folders, scenario_find_AB]
        rfl
      rw [hmap, scenario_gain]
    · simp only [process_folders, scenario_find_AB]
      rfl
    · simp only [process_folders, scenario_find_AB]
      rfl

/- Claim C2: cascade invariant of the selection tree -/

theorem path_mem_all_paths (t : FTree) : t.path ∈ all_paths t := by
  cases t with
  | node p cs =>
      rw [all_paths]
      exact List.mem_cons_self _ _

mutual
theorem all_paths_of_subtree (t u : FTree) (hu : u ∈ subtrees t) :
    ∀ q ∈ all_paths u, q ∈ all_paths t := by
  cases t with
  | node p cs =>
      rw [subtrees] at hu
      rw [all_paths]
      rcases List.mem_cons.mp hu with h | h
      · subst h
        intro q hq
        rw [all_paths] at hq
        exact hq
      · intro q hq
        exact List.mem_cons_of_mem _ (all_paths_of_subtree_forest cs u h q hq)
theorem all_paths_of_subtree_forest (cs : List FTree) (u : FTree)
    (hu : u ∈ subtrees_forest cs) :
    ∀ q ∈ all_paths u, q ∈ all_paths_forest cs := by
  cases cs with
  | nil => rw [subtrees_forest] at hu; exact absurd hu (List.not_mem_nil u)
  | cons c cs' =>
      rw [subtrees_forest] at hu
      rw [all_paths_forest]
      rcases List.mem_append.mp hu with h | h
      · intro q hq
        exact List.mem_append_left _ (all_paths_of_subtree c u h q hq)
      · intro q hq
        exact List.mem_append_right _ (all_paths_of_subtree_forest cs' u h q hq)
end

theorem mem_subtrees_forest_iff (cs : List FTree) (u : FTree) :
    u ∈ subtrees_forest cs ↔ ∃ c ∈ cs, u ∈ subtrees c := by
  induction cs with
  | nil => rw [subtrees_forest]; simp
  | cons c cs' ih =>
      rw [subtrees_forest]
      simp only [List.mem_append, ih, List.mem_cons]
      constructor
      · rintro (h | ⟨c', hc', hu⟩)
        · exact ⟨c, Or.inl rfl, h⟩
        · exact ⟨c', Or.inr hc', hu⟩
      · rintro ⟨c', hc' | hc', hu⟩
        · subst hc'; exact Or.inl hu
        · exact Or.inr ⟨c', hc', hu⟩

theorem all_paths_forest_of_mem (cs : List FTree) (c : FTree) (hc : c ∈ cs) :
    ∀ q ∈ all_paths c, q ∈ all_paths_forest cs := by
  induction cs with
  | nil => exact absurd hc (List.not_mem_nil c)
  | cons a cs' ih =>
      rw [all_paths_forest]
      rcases List.mem_cons.mp hc with h | h
      · subst h; intro q hq; exact List.mem_append_left _ hq
      · intro q hq; exact List.mem_append_right _ (ih h q hq)

theorem mem_subtrees_of_children (u d : FTree) (hd : d ∈ subtrees_forest u.children) :
    d ∈ subtrees u := by
  cases u with
  | node p cs =>
      rw [subtrees]
      exact List.mem_cons_of_mem _ hd

theorem nodup_append_singleton (s : List String) (p : String) (hs : s.Nodup) (hp : p ∉ s) :
    (s ++ [p]).Nodup := by
  rw [List.nodup_append]
  refine ⟨hs, List.nodup_singleton p, ?_⟩
  intro a ha hb
  rw [List.mem_singleton] at hb
  subst hb
  exact hp ha

mutual
theorem add_rec_nodup (t : FTree) (s : List String) (hs : s.Nodup) :
    (add_children_recursive t s).Nodup := by
  cases t with
  | node p cs =>
      rw [add_children_recursive]
      apply add_forest_nodup
      split
      · exact hs
      · rename_i hp
        exact nodup_append_singleton s p hs hp
theorem add_forest_nodup (cs : List FTree) (s : List String) (hs : s.Nodup) :
    (add_children_forest cs s).Nodup := by
  cases cs with
  | nil => rw [add_children_forest]; exact hs
  | cons c cs' =>
      rw [add_children_forest]
      exact add_forest_nodup cs' _ (add_rec_nodup c s hs)
end

mutual
theorem rem_rec_nodup (t : FTree) (s : List String) (hs : s.Nodup) :
    (remove_children_recursive t s).Nodup := by
  cases t with
  | node p cs =>
      rw [remove_children_recursive]
      apply rem_forest_nodup
      split
      · exact hs.erase p
      · exact hs
theorem rem_forest_nodup (cs : List FTree) (s : List String) (hs : s.Nodup) :
    (remove_children_forest cs s).Nodup := by
  cases cs with
  | nil => rw [remove_children_forest]; exact hs
  | cons c cs' =>
      rw [remove_children_forest]
      exact rem_forest_nodup cs' _ (rem_rec_nodup c s hs)
end

mutual
theorem add_rec_mem (t : FTree) (s : List String) (q : String) (hq : q ∉ all_paths t) :
    q ∈ add_children_recursive t s ↔ q ∈ s := by
  cases t with
  | node p cs =>
      rw [all_paths] at hq
      have hqp : q ≠ p := fun h => hq (h ▸ List.mem_cons_self _ _)
      have hqf : q ∉ all_paths_forest cs := fun h => hq (List.mem_cons_of_mem _ h)
      rw [add_children_recursive]
      rw [add_forest_mem cs _ q hqf]
      split
      · exact Iff.rfl
      · simp [hqp]
theorem add_forest_mem (cs : List FTree) (s : List String) (q : String)
    (hq : q ∉ all_paths_forest cs) :
    q ∈ add_children_forest cs s ↔ q ∈ s := by
  cases cs with
  | nil => rw [add_children_forest]
  | cons c cs' =>
      rw [all_paths_forest] at hq
      have h1 : q ∉ all_paths c := fun h => hq (List.mem_append_left _ h)
      have h2 : q ∉ all_paths_forest cs' := fun h => hq (List.mem_append_right _ h)
      rw [add_children_forest]
      rw [add_forest_mem cs' _ q h2, add_rec_mem c s q h1]
end

mutual
theorem rem_rec_mem (t : FTree) (s : List String) (q : String) (hq : q ∉ all_paths t) :
    q ∈ remove_children_recursive t s ↔ q ∈ s := by
  cases t with
  | node p cs =>
      rw [all_paths] at hq
      have hqp : q ≠ p := fun h => hq (h ▸ List.mem_cons_self _ _)
      have hqf : q ∉ all_paths_forest cs := fun h => hq (List.mem_cons_of_mem _ h)
      rw [remove_children_recursive]
      rw [rem_forest_mem cs _ q hqf]
      split
      · exact List.mem_erase_of_ne hqp
      · exact Iff.rfl
theorem rem_forest_mem (cs : List FTree) (s : List String) (q : String)
    (hq : q ∉ all_paths_forest cs) :
    q ∈ remove_children_forest cs s ↔ q ∈ s := by
  cases cs with
  | nil => rw [remove_children_forest]
  | cons c cs' =>
      rw [all_paths_forest] at hq
      have h1 : q ∉ all_paths c := fun h => hq (List.mem_append_left _ h)
      have h2 : q ∉ all_paths_forest cs' := fun h => hq (List.mem_append_right _ h)
      rw [remove_children_forest]
      rw [rem_forest_mem cs' _ q h2, rem_rec_mem c s q h1]
end

theorem toggle_step_nodup (t : FTree) (s : List String) (p : String) (b : Bool)
    (hs : s.Nodup) : (toggle_step t s p b).Nodup := by
  cases t with
  | node path cs =>
      rw [toggle_step]
      generalize (if path = p then b else decide (path ∈ s)) = checked
      split
      · rename_i h
        exact add_forest_nodup cs _ (nodup_append_singleton s path hs h.2)
      · split
        · exact rem_forest_nodup cs _ (hs.erase path)
        · exact hs

theorem toggle_step_mem (t : FTree) (s : List String) (p : String) (b : Bool)
    (q : String) (hq : q ∉ all_paths t) :
    q ∈ toggle_step t s p b ↔ q ∈ s := by
  cases t with
  | node path cs =>
      have hq' := hq
      rw [all_paths] at hq'
      have hqp : q ≠ path := fun h => hq' (h ▸ List.mem_cons_self _ _)
      have hqf : q ∉ all_paths_forest cs := fun h => hq' (List.mem_cons_of_mem _ h)
      rw [toggle_step]
      generalize (if path = p then b else decide (path ∈ s)) = checked
      split
      · rw [add_forest_mem cs _ q hqf]
        simp [hqp]
      · split
        · rw [rem_forest_mem cs _ q hqf]
          exact List.mem_erase_of_ne hqp
        · exact Iff.rfl

theorem post_pass_nodup (t : FTree) (s2 : List String) (h : s2.Nodup) :
    (post_pass t s2).Nodup := by
  rw [post_pass]
  split
  · exact h.erase t.path
  · exact h

theorem post_pass_mem (t : FTree) (s2 : List String) (q : String) (hq : q ≠ t.path) :
    q ∈ post_pass t s2 ↔ q ∈ s2 := by
  rw [post_pass]
  split
  · exact List.mem_erase_of_ne hq
  · exact Iff.rfl

mutual
theorem has_any_iff (t : FTree) (s : List String) :
    has_any_child_selected t s = true ↔ ∃ d ∈ subtrees_forest t.children, d.path ∈ s := by
  cases t with
  | node p cs =>
      rw [has_any_child_selected]
      rw [show (FTree.node p cs).children = cs from rfl]
      exact has_any_forest_iff cs s
theorem has_any_forest_iff (cs : List FTree) (s : List String) :
    has_any_child_forest cs s = true ↔ ∃ d ∈ subtrees_forest cs, d.path ∈ s := by
  cases cs with
  | nil =>
      rw [has_any_child_forest, subtrees_forest]
      simp
  | cons c cs' =>
      rw [has_any_child_forest, subtrees_forest]
      rw [Bool.or_eq_true, Bool.or_eq_true, decide_eq_true_eq]
      rw [has_any_iff c s, has_any_forest_iff cs' s]
      cases c with
      | node cp ccs =>
          rw [subtrees]
          simp only [FTree.children, FTree.path, List.mem_append, List.mem_cons]
          constructor
          · rintro ((h | ⟨d, hd, hdp⟩) | ⟨d, hd, hdp⟩)
            · exact ⟨.node cp ccs, Or.inl (Or.inl rfl), h⟩
            · exact ⟨d, Or.inl (Or.inr hd), hdp⟩
            · exact ⟨d, Or.inr hd, hdp⟩
          · rintro ⟨d, (hd | hd) | hd, hdp⟩
            · subst hd; exact Or.inl (Or.inl hdp)
            · exact Or.inl (Or.inr ⟨d, hd, hdp⟩)
            · exact Or.inr ⟨d, hd, hdp⟩
end

theorem descendant_invariant_congr (t : FTree) (s s' : List String)
    (h : ∀ q ∈ all_paths t, (q ∈ s ↔ q ∈ s'))
    (hi : descendant_selected_invariant t s) :
    descendant_selected_invariant t s' := by
  intro u hu hch hup
  have hsub := all_paths_of_subtree t u hu
  have hup' : u.path ∈ s :=
    (h u.path (hsub _ (path_mem_all_paths u))).mpr hup
  obtain ⟨d, hd, hdp⟩ := hi u hu hch hup'
  refine ⟨d, hd, ?_⟩
  have hdt : d ∈ subtrees u := mem_subtrees_of_children u d hd
  have hdpath : d.path ∈ all_paths t :=
    hsub _ (all_paths_of_subtree u d hdt _ (path_mem_all_paths d))
  exact (h d.path hdpath).mp hdp

mutual
theorem render_tree_spec (t : FTree) (s : List String) (p : String) (b : Bool)
    (ht : (all_paths t).Nodup) (hs : s.Nodup) :
    (render_tree t s p b).Nodup ∧
    (∀ q, q ∉ all_paths t → (q ∈ render_tree t s p b ↔ q ∈ s)) ∧
    descendant_selected_invariant t (render_tree t s p b) := by
  cases t with
  | node path cs =>
      have htc := ht
      rw [all_paths, List.nodup_cons] at htc
      have hpn : path ∉ all_paths_forest cs := htc.1
      have hfn : (all_paths_forest cs).Nodup := htc.2
      have hu1n : (toggle_step (.node path cs) s p b).Nodup := toggle_step_nodup _ s p b hs
      obtain ⟨h2n, h2m, h2inv⟩ :=
        render_forest_spec cs (toggle_step (.node path cs) s p b) p b hfn hu1n
      have heq : render_tree (.node path cs) s p b =
          post_pass (.node path cs)
            (render_forest cs (toggle_step (.node path cs) s p b) p b) := by
        rw [render_tree]
      refine ⟨?_, ?_, ?_⟩
      · rw [heq]
        exact post_pass_nodup _ _ h2n
      · intro q hq
        have hq' := hq
        rw [all_paths] at hq'
        have hqp : q ≠ path := fun h => hq' (h ▸ List.mem_cons_self _ _)
        have hqf : q ∉ all_paths_forest cs := fun h => hq' (List.mem_cons_of_mem _ h)
        rw [heq, post_pass_mem (.node path cs) _ q hqp]
        rw [h2m q hqf, toggle_step_mem _ s p b q hq]
      · rw [heq]
        intro u hu hch hup
        rw [subtrees] at hu
        rcases List.mem_cons.mp hu with h | h
        · subst h
          rw [post_pass] at hup
          by_cases hC : (¬ (FTree.node path cs).children.isEmpty = true ∧
              (FTree.node path cs).path ∈
                render_forest cs (toggle_step (.node path cs) s p b) p b ∧
              ¬ has_any_child_selected (.node path cs)
                (render_forest cs (toggle_step (.node path cs) s p b) p b) = true)
          · rw [if_pos hC] at hup
            exact absurd hup (h2n.not_mem_erase)
          · rw [if_neg hC] at hup
            have hha : has_any_child_selected (.node path cs)
                (render_forest cs (toggle_step (.node path cs) s p b) p b) = true := by
              by_contra hno
              exact hC ⟨hch, hup, hno⟩
            obtain ⟨d, hd, hdp⟩ := (has_any_iff _ _).mp hha
            rw [post_pass, if_neg hC]
            exact ⟨d, hd, hdp⟩
        · obtain ⟨c, hc, huc⟩ := (mem_subtrees_forest_iff cs u).mp h
          have hinvc := h2inv c hc
          have htrans : descendant_selected_invariant c
              (post_pass (.node path cs)
                (render_forest cs (toggle_step (.node path cs) s p b) p b)) := by
            apply descendant_invariant_congr c _ _ ?_ hinvc
            intro q hq
            have hqf : q ∈ all_paths_forest cs := all_paths_forest_of_mem cs c hc q hq
            have hqp : q ≠ path := fun heq2 => hpn (heq2 ▸ hqf)
            exact (post_pass_mem (.node path cs) _ q hqp).symm
          exact htrans u huc hch hup
theorem render_forest_spec (cs : List FTree) (s : List String) (p : String) (b : Bool)
    (hcs : (all_paths_forest cs).Nodup) (hs : s.Nodup) :
    (render_forest cs s p b).Nodup ∧
    (∀ q, q ∉ all_paths_forest cs → (q ∈ render_forest cs s p b ↔ q ∈ s)) ∧
    (∀ c ∈ cs, descendant_selected_invariant c (render_forest cs s p b)) := by
  cases cs with
  | nil =>
      rw [render_forest]
      exact ⟨hs, fun q _ => Iff.rfl, fun c hc => absurd hc (List.not_mem_nil c)⟩
  | cons c cs' =>
      have hsplit := hcs
      rw [all_paths_forest, List.nodup_append] at hsplit
      obtain ⟨hcn, hcs'n, hdisj⟩ := hsplit
      obtain ⟨h1n, h1m, h1inv⟩ := render_tree_spec c s p b hcn hs
      obtain ⟨h2n, h2m, h2inv⟩ :=
        render_forest_spec cs' (render_tree c s p b) p b hcs'n h1n
      have heq : render_forest (c :: cs') s p b =
          render_forest cs' (render_tree c s p b) p b := by
        rw [render_forest]
      refine ⟨?_, ?_, ?_⟩
      · rw [heq]
        exact h2n
      · intro q hq
        rw [all_paths_forest] at hq
        have h1 : q ∉ all_paths c := fun h => hq (List.mem_append_left _ h)
        have h2 : q ∉ all_paths_forest cs' := fun h => hq (List.mem_append_right _ h)
        rw [heq, h2m q h2, h1m q h1]
      · intro c0 hc0
        rcases List.mem_cons.mp hc0 with h | h
        · subst h
          rw [heq]
          apply descendant_invariant_congr c0 (render_tree c0 s p b) _ ?_ h1inv
          intro q hq
          have hq2 : q ∉ all_paths_forest cs' := fun hin => hdisj hq hin
          exact (h2m q hq2).symm
        · rw [heq]
          exact h2inv c0 h
end

theorem apply_toggles_nodup (t : FTree) (ht : (all_paths t).Nodup) :
    ∀ (l : List (String × Bool)) (s : List String), s.Nodup → (apply_toggles t s l).Nodup := by
  intro l
  induction l with
  | nil => intro s hs; exact hs
  | cons x xs ih =>
      intro s hs
      rw [apply_toggles, List.foldl_cons]
      exact ih _ ((render_tree_spec t s x.1 x.2 ht hs).1)

/-- Claim C2 (amended): for every folder tree with distinct paths and
every non-empty finite sequence of toggles starting from the empty
selection, after the last toggle completes (post-pass included) every
selected path whose folder node has children has at least one
**descendant of any depth** — not necessarily a direct child — also in
the selection; folders with no children are exempt. (The same holds after
every intermediate toggle, each prefix being itself such a sequence.) -/
theorem C2_cascade_invariant (t : FTree) (toggles : List (String × Bool))
    (ht : (all_paths t).Nodup) (hne : toggles ≠ []) :
    descendant_selected_invariant t (apply_toggles t [] toggles) := by
  rcases List.eq_nil_or_concat toggles with h | ⟨l', x, h⟩
  · exact absurd h hne
  · subst h
    rw [List.concat_eq_append, apply_toggles, List.foldl_append]
    rw [List.foldl_cons, List.foldl_nil]
    have hnodup : (apply_toggles t [] l').Nodup :=
      apply_toggles_nodup t ht l' [] List.nodup_nil
    exact (render_tree_spec t (apply_toggles t [] l') x.1 x.2 ht hnodup).2.2

theorem C2_witness :
    descendant_selected_invariant (FTree.node "X" [])
      (apply_toggles (FTree.node "X" []) [] [("X", true)]) := by
  apply C2_cascade_invariant
  · have h : all_paths (FTree.node "X" []) = ["X"] := by
      rw [all_paths, all_paths_forest]
    rw [h]
    exact List.nodup_singleton "X"
  · simp

/-- Claim C2, counterexample to the claim as stated: on the tree
`A { A/B1 { A/B1/C }, A/B2 }`, the toggle sequence check `A`, uncheck
`A/B1`, check `A/B1/C`, uncheck `A/B2` (from the empty selection) ends
with selection `[A, A/B1/C]`: `A` is selected and has children, yet
neither direct child `A/B1` nor `A/B2` is selected — only the
grandchild `A/B1/C` keeps it alive, because `_has_any_child_selected`
recurses into deeper descendants. -/
theorem C2_counterexample :
    ¬ direct_child_invariant ex_tree (apply_toggles ex_tree [] ex_toggles) := by
  intro h
  have hfinal : apply_toggles ex_tree [] ex_toggles = ["A", "A/B1/C"] := by
    simp [apply_toggles, ex_tree, ex_toggles, render_tree, render_forest, toggle_step,
      post_pass, add_children_recursive, add_children_forest, remove_children_recursive,
      remove_children_forest, has_any_child_selected, has_any_child_forest, FTree.path,
      FTree.children, List.erase]
  obtain ⟨c, hc, hcp⟩ := h ex_tree
    (by rw [show subtrees ex_tree = ex_tree :: subtrees_forest ex_tree.children by
          rw [ex_tree, subtrees]
          rfl]
        exact List.mem_cons_self _ _)
    (by rw [ex_tree]; simp [FTree.children])
    (by rw [hfinal, show FTree.path ex_tree = "A" by rw [ex_tree]; rfl]
        exact List.mem_cons_self _ _)
  rw [hfinal] at hcp
  rw [show FTree.children ex_tree =
      [FTree.node "A/B1" [FTree.node "A/B1/C" []], FTree.node "A/B2" []] by
        rw [ex_tree]
        rfl] at hc
  rcases List.mem_cons.mp hc with h1 | h1
  · subst h1
    simp [FTree.path] at hcp
  · rw [List.mem_singleton] at h1
    subst h1
    simp [FTree.path] at hcp
